import Mathlib

/-!
Verification of the OCTL (Orange County Tiger/Lines) processing pipeline.

This file is a shallow embedding of the parts of `octl.py` that the verified
properties concern: `OCTL.get_congress_number`, `OCTL.scratch_gdb`,
`OCTL.create_gdb` and `OCTL.process_shapefiles`.

`process_shapefiles` is a straight-line script over the arcpy toolkit: every
decision it takes (which branch of the method dispatch runs, whether an output
row count is zero, which feature classes the year geodatabase lists) depends
only on the run's inputs (the raw-data folder, the codebook and the geometry
engine's answers), never on a raised exception, because any uncaught exception
aborts the whole function.  We therefore embed the function by compiling it,
for given inputs and an initial file-system state, into the sequence of vendor
calls, pure effects and uncaught raises it performs (`compileRun`), and running
that sequence with a small interpreter (`exec`) that can inject a failure at
any vendor call.  Geometric questions (clipping, the spatial within-distance
selection) are delegated by the source to the vendor engine and are abstracted
here by the `clipRes` and `near` fields of `Inputs`; attribute where-clauses
are interpreted on explicit rows.
-/

set_option maxHeartbeats 1000000

namespace OCTL

/-! Association-list operations with Python dictionary semantics. -/

/-- Python dictionary lookup `d[k]` / `d.get(k)` on an insertion-ordered
association list (first matching key wins; keys are unique under `dinsert`). -/
def dlookup {κ α : Type} [BEq κ] (k : κ) : List (κ × α) → Option α
  | [] => none
  | (k2, v) :: rest => if k2 == k then some v else dlookup k rest

/-- Python dictionary assignment `d[k] = v` on an insertion-ordered
association list: an existing key is updated in place, a new key is appended. -/
def dinsert {α : Type} (l : List (String × α)) (k : String) (v : α) : List (String × α) :=
  if l.any (fun p => p.1 == k) then
    l.map (fun p => if p.1 == k then (k, v) else p)
  else l ++ [(k, v)]

/-- Removal of every entry under a key (deletion of a feature class from a
geodatabase listing). -/
def dremove {α : Type} (l : List (String × α)) (k : String) : List (String × α) :=
  l.filter (fun p => !(p.1 == k))

/-- Python `list.remove(a)`: drop the first occurrence of `a`; `none` models
the `ValueError` raised when the element is absent. -/
def removeFirst : List String → String → Option (List String)
  | [], _ => none
  | x :: xs, a => if x = a then some xs else (removeFirst xs a).map (fun t => x :: t)

/-! The US Congress number lookup, `OCTL.get_congress_number` (octl.py 59-97). -/

/-- The `congress_dict` literal of `OCTL.get_congress_number` (octl.py 74-91). -/
def congress_dict : List (Int × Int) :=
  [(2010, 111), (2011, 112), (2012, 112), (2013, 113), (2014, 114), (2015, 114),
   (2016, 115), (2017, 115), (2018, 116), (2019, 116), (2020, 116), (2021, 116),
   (2022, 118), (2023, 118), (2024, 119), (2025, 119)]

/-- `OCTL.get_congress_number` (octl.py 59-97): `congress_dict.get(census_year)`
wrapped in `int(...)`.  On a missing key `dict.get` yields `None`, and
`int(None)` raises a `TypeError` (not the `ValueError` the docstring names). -/
def get_congress_number (census_year : Int) : Except String Int :=
  match dlookup census_year congress_dict with
  | some n => .ok n
  | none => .error "TypeError"

/-! The scratch geodatabase helper, `OCTL.scratch_gdb` (octl.py 277-314). -/

/-- One file-system action performed through an arcpy management call. -/
inductive FsAct
  | del (path : String)
  | createGdb (dir name : String)
  deriving DecidableEq, Repr

/-- Path of the scratch geodatabase,
`os.path.join(self.prj_dirs["gis"], "scratch.gdb")`, with the `gis` project
directory abbreviated to a relative path. -/
def scratchPath : String := "gis/scratch.gdb"

/-- `OCTL.scratch_gdb` (octl.py 277-314): given the method string and whether
the scratch geodatabase currently exists (`arcpy.Exists`), return the value the
function returns (`none` models the bare `return`) together with the arcpy
file-system actions it performs. -/
def scratch_gdb (method : String) (scratchExists : Bool) : Option String × List FsAct :=
  if method = "create" then
    (some scratchPath,
      (if scratchExists then [FsAct.del scratchPath] else []) ++
        [FsAct.createGdb "gis" "scratch.gdb"])
  else if method = "delete" then
    if scratchExists = false then (none, [])
    else (some scratchPath, [FsAct.del scratchPath])
  else
    (some scratchPath, [])

/-! Claim C9: behaviour of `get_congress_number` on every integer input. -/

/-- C9: for every census year key of the internal dictionary (exactly the
integers 2010 through 2025) `get_congress_number` returns the dictionary's
integer for that year, and for every integer outside that range it raises a
`TypeError` (from `int(None)`) instead of returning or raising the documented
`ValueError`. -/
theorem claim_C9 (y : Int) :
    (2010 ≤ y ∧ y ≤ 2025 →
      ∃ n, dlookup y congress_dict = some n ∧ get_congress_number y = .ok n) ∧
    (¬(2010 ≤ y ∧ y ≤ 2025) → get_congress_number y = .error "TypeError") := by
  constructor
  · rintro ⟨h1, h2⟩
    refine ⟨?_, ?_, ?_⟩
    · exact (dlookup y congress_dict).getD 0
    · interval_cases y <;> rfl
    · interval_cases y <;> rfl
  · intro h
    have hy : y < 2010 ∨ 2025 < y := by omega
    have hn : dlookup y congress_dict = none := by
      have e10 : ¬((2010 : Int) = y) := by omega
      have e11 : ¬((2011 : Int) = y) := by omega
      have e12 : ¬((2012 : Int) = y) := by omega
      have e13 : ¬((2013 : Int) = y) := by omega
      have e14 : ¬((2014 : Int) = y) := by omega
      have e15 : ¬((2015 : Int) = y) := by omega
      have e16 : ¬((2016 : Int) = y) := by omega
      have e17 : ¬((2017 : Int) = y) := by omega
      have e18 : ¬((2018 : Int) = y) := by omega
      have e19 : ¬((2019 : Int) = y) := by omega
      have e20 : ¬((2020 : Int) = y) := by omega
      have e21 : ¬((2021 : Int) = y) := by omega
      have e22 : ¬((2022 : Int) = y) := by omega
      have e23 : ¬((2023 : Int) = y) := by omega
      have e24 : ¬((2024 : Int) = y) := by omega
      have e25 : ¬((2025 : Int) = y) := by omega
      simp [congress_dict, dlookup, beq_iff_eq, e10, e11, e12, e13, e14, e15, e16, e17,
        e18, e19, e20, e21, e22, e23, e24, e25]
    simp [get_congress_number, hn]

/-- Witness for C9 at the concrete years 2013 (in range) and 2026 (out of
range). -/
theorem claim_C9_witness :
    get_congress_number 2013 = .ok 113 ∧ get_congress_number 2026 = .error "TypeError" := by
  constructor
  · obtain ⟨n, hl, hr⟩ := (claim_C9 2013).1 (by decide)
    have h2 : dlookup (2013 : Int) congress_dict = some 113 := by decide
    rw [hl] at h2
    cases h2
    exact hr
  · exact (claim_C9 2026).2 (by decide)

/-! Claim C10: behaviour of `scratch_gdb` for every method string. -/

/-- C10: `scratch_gdb` with method `delete` returns `None` (and performs
nothing) when the scratch geodatabase does not exist; with method `create`, a
successful `delete`, or any unrecognized method string it returns the scratch
geodatabase path, and for an unrecognized method no create or delete
file-system action is performed. -/
theorem claim_C10 (m : String) (e : Bool) (hm1 : m ≠ "create") (hm2 : m ≠ "delete") :
    scratch_gdb "delete" false = (none, []) ∧
    (scratch_gdb "create" e).1 = some scratchPath ∧
    scratch_gdb "delete" true = (some scratchPath, [FsAct.del scratchPath]) ∧
    scratch_gdb m e = (some scratchPath, []) := by
  refine ⟨rfl, ?_, rfl, ?_⟩
  · cases e <;> rfl
  · simp [scratch_gdb, hm1, hm2]

/-- Witness for C10 with the unrecognized method string "bogus" and an
existing scratch geodatabase. -/
theorem claim_C10_witness :
    scratch_gdb "delete" false = (none, []) ∧
    (scratch_gdb "create" true).1 = some scratchPath ∧
    scratch_gdb "delete" true = (some scratchPath, [FsAct.del scratchPath]) ∧
    scratch_gdb "bogus" true = (some scratchPath, []) :=
  claim_C10 "bogus" true (by decide) (by decide)

/-! Data model of `OCTL.process_shapefiles` (octl.py 1046-1282). -/

/-- One attribute row of a feature class or table.  The four FIPS fields are
the ones consulted by the where-clauses of `process_shapefiles`; the row's
geometry is handled abstractly (see `Inputs.near` and `Inputs.clipRes`). -/
structure Row where
  statefp : String
  countyfp : String
  statefp20 : String
  countyfp20 : String
  deriving DecidableEq, Repr

/-- A single quote character (used inside the SQL where-clause literals). -/
def sq : String := String.mk [Char.ofNat 39]

/-- The where-clause string "STATEFP = '06' And COUNTYFP = '059'" of
octl.py 1109 and 1205. -/
def fipsWhere : String :=
  "STATEFP = " ++ sq ++ "06" ++ sq ++ " And COUNTYFP = " ++ sq ++ "059" ++ sq

/-- The where-clause string "STATEFP20 = '06' And COUNTYFP20 = '059'" of
octl.py 1220. -/
def fipsWhere20 : String :=
  "STATEFP20 = " ++ sq ++ "06" ++ sq ++ " And COUNTYFP20 = " ++ sq ++ "059" ++ sq

/-- Row predicate of the where-clause `fipsWhere`. -/
def rowFips (r : Row) : Bool := r.statefp == "06" && r.countyfp == "059"

/-- Row predicate of the where-clause `fipsWhere20`. -/
def rowFips20 (r : Row) : Bool := r.statefp20 == "06" && r.countyfp20 == "059"

/-- The codebook record fields read by `process_shapefiles`: the two-letter
output code (`code2`), the processing method string, and the display alias. -/
structure CbEntry where
  code2 : String
  method : String
  aliasName : String
  deriving DecidableEq, Repr

/-- The metadata record built by `OCTL.process_metadata` (octl.py 354-1040)
for one layer: the fields copied onto the vendor metadata object at
octl.py 1246-1252. -/
structure FcMeta where
  title : String
  tags : String
  summary : String
  description : String
  credits : String
  access : String
  uri : String
  deriving DecidableEq, Repr

/-- Path join, `os.path.join` on the two-component paths used here. -/
def pjoin (a b : String) : String := a ++ "/" ++ b

/-- The full name `tl_<year>_<f>` of a raw layer. -/
def tlName (year : Nat) (f : String) : String := s!"tl_{year}_{f}"

/-- Path of the year geodatabase `TL<year>.gdb` inside the `gis` directory
(octl.py 334-335). -/
def tlGdbPath (year : Nat) : String := pjoin "gis" s!"TL{year}.gdb"

/-- Whether the first character list is an initial segment of the second. -/
def leadsWith : List Char → List Char → Bool
  | [], _ => true
  | _ :: _, [] => false
  | a :: as, b :: bs => a == b && leadsWith as bs

/-- The raw-data scan's name normalisation `f.replace(f"tl_{year}_", "")`
(octl.py 1119).  The names listed from the scratch geodatabase carry the tag
exactly once, as a prefix (they come from files named `tl_<year>_<rest>`),
for which Python `str.replace` is prefix removal. -/
def stripTl (year : Nat) (s : String) : String :=
  let tag := s!"tl_{year}_"
  if leadsWith tag.data s.data then String.mk (s.data.drop tag.data.length) else s

/-- Inputs that determine a run of `process_shapefiles`: the scanned year,
the loaded codebook, the feature classes listed in the scratch geodatabase
after import, their row contents, the abstract geometry engine (`clipRes` for
`arcpy.analysis.Clip` against the county boundary, `near` for the
WITHIN_A_DISTANCE selection at -1000 Feet of the county boundary output), the
`process_metadata` dictionary, whether the geodatabase metadata object is
read-only, and the raw shapefile/table counts. -/
structure Inputs where
  year : Nat
  cb : List (String × CbEntry)
  scratchFcs : List String
  content : String → List Row
  clipRes : String → List Row
  near : Row → Bool
  mdDict : List (String × FcMeta)
  mdReadOnly : Bool
  shpCount : Nat
  tblCount : Nat

/-- Initial file-system state of the `gis` directory. -/
structure FS where
  scratchExists : Bool
  tlExists : Bool
  deriving DecidableEq, Repr

/-- Tag separating arcpy geoprocessing-tool calls from vendor metadata-API
calls. -/
inductive Tag
  | geoproc
  | metaApi
  deriving DecidableEq, Repr

/-- Trace events: one per vendor call performed by `process_shapefiles`,
recording the call's distinguishing arguments. -/
inductive Event
  | shpImport (count : Nat) (dest : String)
  | tblImport (count : Nat) (dest : String)
  | del (path : String)
  | createFileGdb (dir name : String)
  | sel (inFc outFc wc : String)
  | getCount (target : String)
  | clipOp (inFc clipFeatures outFc : String)
  | copyOp (inFc outFc : String)
  | makeLayer (inFc lyr : String)
  | selByLoc (lyr overlap selFeat dist selType invertRel : String)
  | exportFc (lyr dest name : String)
  | alterAlias (target aliasNm : String)
  | mdSave (target layer : String) (meta : FcMeta)
  | saveGdbMeta (target : String)
  deriving DecidableEq, Repr

/-- Uncaught Python exceptions of a run. -/
inductive PyErr
  | keyError (k : String)
  | valueError (msg : String)
  | arcpyFail (t : Tag)
  deriving DecidableEq, Repr

/-- Mutable state the run touches: the two geodatabases of the `gis`
directory, the year geodatabase's feature classes and their alias table, and
the `final_list` registry. -/
structure Core where
  scratchExists : Bool
  tlExists : Bool
  gdb : List (String × List Row)
  aliases : List (String × String)
  reg : List (String × String)
  deriving DecidableEq, Repr

/-- A fallible vendor call: its tag, the trace event it emits, and its effect
on the state. -/
structure Call where
  tag : Tag
  evt : Event
  upd : Core → Core

/-- One compiled instruction of `process_shapefiles`: a vendor call, a pure
Python effect, or an uncaught Python raise. -/
inductive Instr
  | call : Call → Instr
  | eff : (Core → Core) → Instr
  | raiseErr : PyErr → Instr

/-- Effect of one instruction on the state (failure-free semantics). -/
def applyInstr (c : Core) : Instr → Core
  | .call cl => cl.upd c
  | .eff g => g c
  | .raiseErr _ => c

/-- Effect of an instruction sequence on the state (failure-free semantics). -/
def applyAll (l : List Instr) (c : Core) : Core := l.foldl applyInstr c

/-- The events of the vendor calls of an instruction sequence, in order. -/
def evtsOf (l : List Instr) : List Event :=
  l.flatMap fun i => match i with
    | .call cl => [cl.evt]
    | _ => []

/-- Number of vendor calls in an instruction sequence. -/
def ncalls (l : List Instr) : Nat :=
  (l.filter fun i => match i with | .call _ => true | _ => false).length

/-- Result of running an instruction sequence: the value returned by
`process_shapefiles` (its `final_list`) or the uncaught exception, the final
state, the trace of completed vendor calls, and the next vendor-call index. -/
structure ExecRes where
  res : Except PyErr (List (String × String))
  core : Core
  trace : List Event
  next : Nat

/-- Run a compiled instruction sequence.  `failAt = some k` makes the k-th
vendor call of the run (0-based) raise; any raised exception aborts the
remainder, mirroring an uncaught Python exception, and leaves the state and
trace as they were at the raise. -/
def exec : List Instr → Option Nat → Nat → Core → List Event → ExecRes
  | [], _, n, c, tr => ⟨.ok c.reg, c, tr, n⟩
  | .call cl :: rest, failAt, n, c, tr =>
    if failAt = some n then ⟨.error (.arcpyFail cl.tag), c, tr, n⟩
    else exec rest failAt (n + 1) (cl.upd c) (tr ++ [cl.evt])
  | .eff g :: rest, failAt, n, c, tr => exec rest failAt n (g c) tr
  | .raiseErr e :: _, _, n, c, tr => ⟨.error e, c, tr, n⟩

/-! Compilation of `process_shapefiles` into its instruction sequence. -/

/-- `self.scratch_gdb(method = "create")` (octl.py 294-302, called at 1064):
delete the existing scratch geodatabase if present, then create a fresh one. -/
def scratchCreateInstrs (scratchExists : Bool) : List Instr :=
  (if scratchExists then
    [Instr.call ⟨.geoproc, .del scratchPath, fun c => { c with scratchExists := false }⟩]
  else []) ++
  [Instr.call ⟨.geoproc, .createFileGdb "gis" "scratch.gdb",
    fun c => { c with scratchExists := true }⟩]

/-- Import of the raw shapefiles and tables into the scratch geodatabase
(octl.py 1073-1085); each conversion is skipped when the respective raw
listing is empty.  The scratch geodatabase's contents are carried by
`Inputs.content`, so the state update is the identity. -/
def importInstrs (inp : Inputs) : List Instr :=
  (if 0 < inp.shpCount then
    [Instr.call ⟨.geoproc, .shpImport inp.shpCount scratchPath, fun c => c⟩]
  else []) ++
  (if 0 < inp.tblCount then
    [Instr.call ⟨.geoproc, .tblImport inp.tblCount scratchPath, fun c => c⟩]
  else [])

/-- `self.create_gdb()` (octl.py 320-348, called at 1099): create the year
geodatabase, deleting it first when it already exists; on both paths it ends
up freshly created and empty. -/
def createGdbInstrs (tlExists : Bool) (year : Nat) : List Instr :=
  if tlExists = false then
    [Instr.call ⟨.geoproc, .createFileGdb "gis" s!"TL{year}.gdb",
      fun c => { c with tlExists := true, gdb := [] }⟩]
  else
    [Instr.call ⟨.geoproc, .del (tlGdbPath year), fun c => { c with tlExists := false, gdb := [] }⟩,
     Instr.call ⟨.geoproc, .createFileGdb "gis" s!"TL{year}.gdb",
      fun c => { c with tlExists := true, gdb := [] }⟩]

/-- Rows selected into a given layer's output, per codebook method
(octl.py 1139-1231).  `clip` and the spatial `within` selection are answered
by the abstract geometry of `Inputs`; `copy` is content-preserving; the two
query methods interpret their where-clause on the rows. -/
def layerOut (inp : Inputs) (f m : String) : List Row :=
  match m with
  | "clip" => inp.clipRes f
  | "copy" => inp.content (tlName inp.year f)
  | "within" => (inp.content (tlName inp.year f)).filter inp.near
  | "query" => (inp.content (tlName inp.year f)).filter rowFips
  | "query20" => (inp.content (tlName inp.year f)).filter rowFips20
  | _ => []

/-- The FIPS select that produces the county boundary output
(octl.py 1101-1113): select from `tl_<year>_us_county` into the output named
by the codebook's `code2`, then delete that output when its row count is
zero.  Note there is no registration and no alias assignment here. -/
def countyInstrs (inp : Inputs) (ce : CbEntry) : List Instr :=
  let inOc := pjoin scratchPath (tlName inp.year "us_county")
  let outOc := pjoin (tlGdbPath inp.year) ce.code2
  let outRows := (inp.content (tlName inp.year "us_county")).filter rowFips
  [Instr.call ⟨.geoproc, .sel inOc outOc fipsWhere,
     fun c => { c with gdb := dinsert c.gdb ce.code2 outRows }⟩,
   Instr.call ⟨.geoproc, .getCount outOc, fun c => c⟩] ++
  (if outRows.length = 0 then
    [Instr.call ⟨.geoproc, .del outOc, fun c => { c with gdb := dremove c.gdb ce.code2 }⟩]
  else [])

/-- The emptiness check shared by every dispatch branch (octl.py 1147-1154
and its per-branch repeats): get the output's row count, delete the output
when it is zero, otherwise register the code in `final_list` and set the
output's display alias from the codebook. -/
def postInstrs (f outFc code aliasNm : String) (out : List Row) : List Instr :=
  [Instr.call ⟨.geoproc, .getCount outFc, fun c => c⟩] ++
  (if out.length = 0 then
    [Instr.call ⟨.geoproc, .del outFc, fun c => { c with gdb := dremove c.gdb code }⟩]
  else
    [Instr.eff (fun c => { c with reg := dinsert c.reg code f }),
     Instr.call ⟨.geoproc, .alterAlias outFc aliasNm,
       fun c => { c with aliases := dinsert c.aliases outFc aliasNm }⟩])

/-- One iteration of the dispatch loop (octl.py 1127-1231) for layer `f`;
`outOc` is the county boundary output path used as the clip features of
`clip` and the select features of `within`.  A layer missing from the
codebook raises a `KeyError` at the `code2` lookup (octl.py 1130), before
anything else happens.  An unmatched method string, like the `none` method,
falls through the Python `match` doing nothing. -/
def layerInstrs (inp : Inputs) (outOc : String) (f : String) : List Instr :=
  match dlookup f inp.cb with
  | none => [Instr.raiseErr (.keyError f)]
  | some e =>
    let fc := tlName inp.year f
    let inFc := pjoin scratchPath fc
    let outFc := pjoin (tlGdbPath inp.year) e.code2
    let out := layerOut inp f e.method
    match e.method with
    | "clip" =>
      Instr.call ⟨.geoproc, .clipOp inFc outOc outFc,
        fun c => { c with gdb := dinsert c.gdb e.code2 out }⟩ ::
      postInstrs f outFc e.code2 e.aliasName out
    | "copy" =>
      Instr.call ⟨.geoproc, .copyOp inFc outFc,
        fun c => { c with gdb := dinsert c.gdb e.code2 out }⟩ ::
      postInstrs f outFc e.code2 e.aliasName out
    | "within" =>
      -- The source's emptiness test on the freshly made temporary layer
      -- (octl.py 1175) compares an arcpy Result object with the int 0 and is
      -- therefore never true, so the branch always proceeds to the spatial
      -- selection; genuine emptiness is handled by the post-export check.
      [Instr.call ⟨.geoproc, .makeLayer inFc "temp_lyr", fun c => c⟩,
       Instr.call ⟨.geoproc, .getCount "temp_lyr", fun c => c⟩,
       Instr.call ⟨.geoproc,
         .selByLoc "temp_lyr" "WITHIN_A_DISTANCE" outOc "-1000 Feet" "NEW_SELECTION" "NOT_INVERT",
         fun c => c⟩,
       Instr.call ⟨.geoproc, .exportFc "temp_lyr" (tlGdbPath inp.year) e.code2,
         fun c => { c with gdb := dinsert c.gdb e.code2 out }⟩,
       Instr.call ⟨.geoproc, .del "temp_lyr", fun c => c⟩] ++
      postInstrs f outFc e.code2 e.aliasName out
    | "query" =>
      Instr.call ⟨.geoproc, .sel inFc outFc fipsWhere,
        fun c => { c with gdb := dinsert c.gdb e.code2 out }⟩ ::
      postInstrs f outFc e.code2 e.aliasName out
    | "query20" =>
      Instr.call ⟨.geoproc, .sel inFc outFc fipsWhere20,
        fun c => { c with gdb := dinsert c.gdb e.code2 out }⟩ ::
      postInstrs f outFc e.code2 e.aliasName out
    | _ => []

/-- One iteration of the metadata-application loop (octl.py 1242-1261) for
the feature class named `fc` listed in the year geodatabase.  The metadata
object written is built from `md_dict[final_list[fc]]`, but the object it is
copied into is `md.Metadata(tl_gdb)` — the geodatabase itself, not the
feature class `fc` — so the save targets the geodatabase path. -/
def mdFcInstrs (inp : Inputs) (reg : List (String × String)) (fc : String) : List Instr :=
  match dlookup fc reg with
  | none => [Instr.raiseErr (.keyError fc)]
  | some layer =>
    match dlookup layer inp.mdDict with
    | none => [Instr.raiseErr (.keyError layer)]
    | some m =>
      if inp.mdReadOnly then []
      else [Instr.call ⟨.metaApi, .mdSave (tlGdbPath inp.year) layer m, fun c => c⟩]

/-- The setup phase of `process_shapefiles` (octl.py 1063-1099): create the
scratch geodatabase, import the raw data, create the year geodatabase. -/
def setupInstrs (inp : Inputs) (fs : FS) : List Instr :=
  scratchCreateInstrs fs.scratchExists ++ importInstrs inp ++
    createGdbInstrs fs.tlExists inp.year

/-- Everything after the setup phase (octl.py 1101-1282), compiled from the
state `c0` the setup leaves behind: the county select, the registry and
layer-list bookkeeping, the dispatch loop, the year-geodatabase listing and
metadata loop, the scratch deletion and the final geodatabase metadata save.
The two run-time listings (octl.py 1236) and the two existence tests
(octl.py 304, inside the closing `scratch_gdb("delete")`) are resolved with
`applyAll`, which replays the state the run has reached at that line; this is
exact because every raised exception aborts the whole function, so any state
a later line observes was produced by the unfailed earlier lines. -/
def tailInstrs (inp : Inputs) (c0 : Core) : List Instr :=
  match dlookup "us_county" inp.cb with
  | none => [Instr.raiseErr (.keyError "us_county")]
  | some ce =>
    let county := countyInstrs inp ce
    match removeFirst (inp.scratchFcs.map (stripTl inp.year)) "us_county" with
    | none => county ++ [Instr.raiseErr (.valueError "list.remove(x): x not in list")]
    | some fcl =>
      let outOc := pjoin (tlGdbPath inp.year) ce.code2
      let body := county ++
        [Instr.eff (fun c => { c with reg := dinsert c.reg "CO" "us_county" })] ++
        (fcl.map (layerInstrs inp outOc)).flatten
      let afterLoop := applyAll body c0
      let mdLoop := (afterLoop.gdb.map (fun p => p.1)).flatMap (mdFcInstrs inp afterLoop.reg)
      let afterMd := applyAll (body ++ mdLoop) c0
      body ++ mdLoop ++
      (if afterMd.scratchExists then
        [Instr.call ⟨.geoproc, .del scratchPath, fun c => { c with scratchExists := false }⟩]
      else []) ++
      [Instr.call ⟨.metaApi, .saveGdbMeta (tlGdbPath inp.year), fun c => c⟩]

/-- Initial state of a run. -/
def coreInit (fs : FS) : Core := ⟨fs.scratchExists, fs.tlExists, [], [], []⟩

/-- The whole of `process_shapefiles` (octl.py 1046-1282) as an instruction
sequence. -/
def compileRun (inp : Inputs) (fs : FS) : List Instr :=
  setupInstrs inp fs ++ tailInstrs inp (applyAll (setupInstrs inp fs) (coreInit fs))

/-- `OCTL.process_shapefiles`: run the compiled instruction sequence from the
given file-system state, optionally injecting a failure at the `failAt`-th
vendor call. -/
def process_shapefiles (inp : Inputs) (fs : FS) (failAt : Option Nat) : ExecRes :=
  exec (compileRun inp fs) failAt 0 (coreInit fs) []

/-! Generic lemmas about the state transformer and the interpreter. -/

theorem applyAll_nil (c : Core) : applyAll [] c = c := rfl

theorem applyAll_cons (i : Instr) (l : List Instr) (c : Core) :
    applyAll (i :: l) c = applyAll l (applyInstr c i) := rfl

theorem applyAll_append (l1 l2 : List Instr) (c : Core) :
    applyAll (l1 ++ l2) c = applyAll l2 (applyAll l1 c) := by
  simp [applyAll, List.foldl_append]

theorem evtsOf_append (l1 l2 : List Instr) : evtsOf (l1 ++ l2) = evtsOf l1 ++ evtsOf l2 := by
  simp [evtsOf]

theorem ncalls_cons_call (cl : Call) (l : List Instr) :
    ncalls (Instr.call cl :: l) = ncalls l + 1 := by
  simp [ncalls, List.filter]

theorem ncalls_cons_eff (g : Core → Core) (l : List Instr) :
    ncalls (Instr.eff g :: l) = ncalls l := by
  simp [ncalls, List.filter]

/-- Splitting an execution at a failed first half. -/
theorem exec_append_error (l1 l2 : List Instr) (fa : Option Nat) (n : Nat) (c : Core)
    (tr : List Event) (e : PyErr) (h : (exec l1 fa n c tr).res = .error e) :
    exec (l1 ++ l2) fa n c tr = exec l1 fa n c tr := by
  induction l1 generalizing n c tr with
  | nil => simp [exec] at h
  | cons i l1 ih =>
    cases i with
    | call cl =>
      by_cases hf : fa = some n
      · simp [exec, hf]
      · simp only [exec, if_neg hf] at h ⊢
        exact ih _ _ _ h
    | eff g =>
      simp only [exec] at h ⊢
      exact ih _ _ _ h
    | raiseErr e2 => simp [exec]

/-- Splitting an execution at a successful first half. -/
theorem exec_append_ok (l1 l2 : List Instr) (fa : Option Nat) (n : Nat) (c : Core)
    (tr : List Event) (x : List (String × String)) (h : (exec l1 fa n c tr).res = .ok x) :
    exec (l1 ++ l2) fa n c tr =
      exec l2 fa (exec l1 fa n c tr).next (exec l1 fa n c tr).core (exec l1 fa n c tr).trace := by
  induction l1 generalizing n c tr with
  | nil => simp [exec]
  | cons i l1 ih =>
    cases i with
    | call cl =>
      by_cases hf : fa = some n
      · simp [exec, hf] at h
      · simp only [exec, if_neg hf] at h ⊢
        exact ih _ _ _ h
    | eff g =>
      simp only [exec] at h ⊢
      exact ih _ _ _ h
    | raiseErr e2 => simp [exec] at h

/-- A successful execution applies every instruction, emits every event and
counts every call. -/
theorem exec_ok_eq (l : List Instr) (fa : Option Nat) (n : Nat) (c : Core) (tr : List Event)
    (x : List (String × String)) (h : (exec l fa n c tr).res = .ok x) :
    exec l fa n c tr = ⟨.ok (applyAll l c).reg, applyAll l c, tr ++ evtsOf l, n + ncalls l⟩ := by
  induction l generalizing n c tr with
  | nil => simp [exec, applyAll, evtsOf, ncalls]
  | cons i l ih =>
    cases i with
    | call cl =>
      by_cases hf : fa = some n
      · simp [exec, hf] at h
      · simp only [exec, if_neg hf] at h ⊢
        rw [ih _ _ _ h, applyAll_cons, ncalls_cons_call]
        simp [applyInstr, evtsOf]
        omega
    | eff g =>
      simp only [exec] at h ⊢
      rw [ih _ _ _ h, applyAll_cons, ncalls_cons_eff]
      simp [applyInstr, evtsOf]
    | raiseErr e2 => simp [exec] at h

/-- Instructions that are not uncaught raises. -/
def notRaise : Instr → Prop
  | .raiseErr _ => False
  | _ => True

/-- With no injected failure and no raise instruction, execution succeeds. -/
theorem exec_none_ok (l : List Instr) (h : ∀ i ∈ l, notRaise i) (n : Nat) (c : Core)
    (tr : List Event) :
    (exec l none n c tr).res = .ok (applyAll l c).reg := by
  induction l generalizing n c tr with
  | nil => simp [exec, applyAll]
  | cons i l ih =>
    cases i with
    | call cl =>
      simp only [exec, reduceCtorEq, if_false]
      rw [applyAll_cons]
      exact ih (fun j hj => h j (List.mem_cons_of_mem _ hj)) _ _ _
    | eff g =>
      simp only [exec]
      rw [applyAll_cons]
      exact ih (fun j hj => h j (List.mem_cons_of_mem _ hj)) _ _ _
    | raiseErr e2 => exact absurd (h _ (List.mem_cons_self _ _)) (by simp [notRaise])

/-- Without an injected failure, the result and final state of an execution do
not depend on the incoming call counter or trace. -/
theorem exec_none_shift (l : List Instr) (n n2 : Nat) (c : Core) (tr tr2 : List Event) :
    (exec l none n c tr).res = (exec l none n2 c tr2).res ∧
    (exec l none n c tr).core = (exec l none n2 c tr2).core := by
  induction l generalizing n n2 c tr tr2 with
  | nil => simp [exec]
  | cons i l ih =>
    cases i with
    | call cl =>
      simp only [exec, reduceCtorEq, if_false]
      exact ih _ _ _ _ _
    | eff g =>
      simp only [exec]
      exact ih _ _ _ _ _
    | raiseErr e2 => simp [exec]

/-- On a raise-free instruction sequence, an injected arcpy failure only
arises at a call index within the sequence's call-count range. -/
theorem exec_arcpyFail_index (l : List Instr) (fa : Option Nat) (n : Nat) (c : Core)
    (tr : List Event) (t : Tag) (hr : ∀ i ∈ l, notRaise i)
    (h : (exec l fa n c tr).res = .error (.arcpyFail t)) :
    ∃ j, fa = some j ∧ n ≤ j ∧ j < n + ncalls l := by
  induction l generalizing n c tr with
  | nil => simp [exec] at h
  | cons i l ih =>
    cases i with
    | call cl =>
      by_cases hf : fa = some n
      · exact ⟨n, hf, le_refl n, by rw [ncalls_cons_call]; omega⟩
      · simp only [exec, if_neg hf] at h
        obtain ⟨j, h1, h2, h3⟩ := ih _ _ _ (fun j hj => hr j (List.mem_cons_of_mem _ hj)) h
        exact ⟨j, h1, by omega, by rw [ncalls_cons_call]; omega⟩
    | eff g =>
      simp only [exec] at h
      obtain ⟨j, h1, h2, h3⟩ := ih _ _ _ (fun j hj => hr j (List.mem_cons_of_mem _ hj)) h
      exact ⟨j, h1, h2, by rw [ncalls_cons_eff]; omega⟩
    | raiseErr e2 => exact absurd (hr _ (List.mem_cons_self _ _)) (by simp [notRaise])

/-! Dictionary lemmas. -/

theorem dlookup_append_of_not_found {α : Type} (l1 l2 : List (String × α)) (k : String)
    (h : l1.any (fun p => p.1 == k) = false) :
    dlookup k (l1 ++ l2) = dlookup k l2 := by
  induction l1 with
  | nil => simp
  | cons p l1 ih =>
    simp only [List.any_cons, Bool.or_eq_false_iff] at h
    simp only [List.cons_append, dlookup, h.1, Bool.false_eq_true, if_false]
    exact ih h.2

theorem dlookup_map_update {α : Type} (l : List (String × α)) (k : String) (v : α) :
    dlookup k (l.map fun p => if p.1 == k then (k, v) else p) =
      if l.any (fun p => p.1 == k) then some v else dlookup k l := by
  induction l with
  | nil => simp [dlookup]
  | cons p l ih =>
    simp only [List.map_cons, List.any_cons]
    by_cases hp : (p.1 == k) = true
    · rw [if_pos hp]
      simp [dlookup, hp]
    · rw [if_neg hp]
      simp only [dlookup, hp, Bool.false_eq_true, if_false, Bool.false_or]
      exact ih

/-- A key written by `dinsert` is afterwards found with its written value. -/
theorem dlookup_dinsert {α : Type} (l : List (String × α)) (k : String) (v : α) :
    dlookup k (dinsert l k v) = some v := by
  unfold dinsert
  by_cases h : l.any (fun p => p.1 == k) = true
  · rw [if_pos h, dlookup_map_update, if_pos h]
  · have h2 : l.any (fun p => p.1 == k) = false := by
      cases hb : l.any (fun p => p.1 == k)
      · rfl
      · exact absurd hb h
    rw [if_neg h, dlookup_append_of_not_found _ _ _ h2]
    simp [dlookup]

/-- A key removed by `dremove` is afterwards not found. -/
theorem dlookup_dremove {α : Type} (l : List (String × α)) (k : String) :
    dlookup k (dremove l k) = none := by
  induction l with
  | nil => rfl
  | cons p l ih =>
    by_cases hp : (p.1 == k) = true
    · simpa [dremove, List.filter, hp] using ih
    · simpa [dremove, List.filter, hp, dlookup] using ih

/-- `dinsert` preserves key membership. -/
theorem mem_keys_dinsert {α : Type} (l : List (String × α)) (k a : String) (v : α)
    (h : a ∈ l.map Prod.fst) : a ∈ (dinsert l k v).map Prod.fst := by
  unfold dinsert
  split
  · rw [List.map_map]
    obtain ⟨p, hp, rfl⟩ := List.mem_map.1 h
    refine List.mem_map.2 ⟨p, hp, ?_⟩
    by_cases hk : (p.1 == k) = true
    · have : p.1 = k := by simpa using hk
      simp [Function.comp, hk, this]
    · simp [Function.comp, hk]
  · simp only [List.map_append]
    exact List.mem_append.2 (Or.inl h)

/-- The written key is a key of the result of `dinsert`. -/
theorem mem_keys_dinsert_self {α : Type} (l : List (String × α)) (k : String) (v : α) :
    k ∈ (dinsert l k v).map Prod.fst := by
  unfold dinsert
  split
  · rename_i h
    rw [List.map_map]
    obtain ⟨p, hp, hpk⟩ := List.any_eq_true.1 h
    refine List.mem_map.2 ⟨p, hp, ?_⟩
    simp only [Function.comp_apply, hpk, if_true]
  · simp

/-! Preservation facts: every instruction between the setup phase and the
closing scratch deletion leaves the scratch-existence flag alone and never
drops a key from the registry. -/

/-- An instruction is tame when it preserves the scratch-existence flag and
(at most extends, never drops) the registry's key set. -/
def Tame (i : Instr) : Prop :=
  ∀ c : Core, (applyInstr c i).scratchExists = c.scratchExists ∧
    ∀ k, k ∈ c.reg.map Prod.fst → k ∈ (applyInstr c i).reg.map Prod.fst

/-- All instructions of a sequence are tame. -/
def TameL (l : List Instr) : Prop := ∀ i ∈ l, Tame i

theorem tameL_nil : TameL [] := fun i hi => absurd hi (List.not_mem_nil i)

theorem tameL_cons {i : Instr} {l : List Instr} (h1 : Tame i) (h2 : TameL l) :
    TameL (i :: l) := by
  intro j hj
  rcases List.mem_cons.1 hj with h | h
  · exact h ▸ h1
  · exact h2 j h

theorem tameL_single {i : Instr} (h : Tame i) : TameL [i] := tameL_cons h tameL_nil

theorem tameL_append {l1 l2 : List Instr} (h1 : TameL l1) (h2 : TameL l2) :
    TameL (l1 ++ l2) := by
  intro i hi
  rcases List.mem_append.1 hi with h | h
  · exact h1 i h
  · exact h2 i h

theorem tameL_ite {b : Prop} [Decidable b] {l1 l2 : List Instr} (h1 : TameL l1)
    (h2 : TameL l2) : TameL (if b then l1 else l2) := by
  split
  · exact h1
  · exact h2

theorem tameL_flatten {L : List (List Instr)} (h : ∀ l ∈ L, TameL l) : TameL L.flatten := by
  intro i hi
  obtain ⟨l, hl, hil⟩ := List.mem_flatten.1 hi
  exact h l hl i hil

theorem tameL_flatMap {A : Type} {g : A → List Instr} {xs : List A}
    (h : ∀ x ∈ xs, TameL (g x)) : TameL (xs.flatMap g) := by
  intro i hi
  obtain ⟨x, hx, hix⟩ := List.mem_flatMap.1 hi
  exact h x hx i hix

theorem tame_call_id (t : Tag) (e : Event) : Tame (Instr.call ⟨t, e, fun c => c⟩) :=
  fun _ => ⟨rfl, fun _ hk => hk⟩

theorem tame_call_gdb (t : Tag) (e : Event) (g : Core → List (String × List Row)) :
    Tame (Instr.call ⟨t, e, fun c => { c with gdb := g c }⟩) :=
  fun _ => ⟨rfl, fun _ hk => hk⟩

theorem tame_call_aliases (t : Tag) (e : Event) (g : Core → List (String × String)) :
    Tame (Instr.call ⟨t, e, fun c => { c with aliases := g c }⟩) :=
  fun _ => ⟨rfl, fun _ hk => hk⟩

theorem tame_eff_reg_dinsert (k2 : String) (v : String) :
    Tame (Instr.eff (fun c => { c with reg := dinsert c.reg k2 v })) :=
  fun c => ⟨rfl, fun k hk => mem_keys_dinsert c.reg k2 k v hk⟩

theorem tame_raise (e : PyErr) : Tame (Instr.raiseErr e) := fun _ => ⟨rfl, fun _ hk => hk⟩

theorem tameL_countyInstrs (inp : Inputs) (ce : CbEntry) : TameL (countyInstrs inp ce) := by
  unfold countyInstrs
  exact tameL_append
    (tameL_cons (tame_call_gdb _ _ _) (tameL_single (tame_call_id _ _)))
    (tameL_ite (tameL_single (tame_call_gdb _ _ _)) tameL_nil)

theorem tameL_postInstrs (f outFc code aliasNm : String) (out : List Row) :
    TameL (postInstrs f outFc code aliasNm out) := by
  unfold postInstrs
  exact tameL_append (tameL_single (tame_call_id _ _))
    (tameL_ite (tameL_single (tame_call_gdb _ _ _))
      (tameL_cons (tame_eff_reg_dinsert _ _) (tameL_single (tame_call_aliases _ _ _))))

theorem tameL_layerInstrs (inp : Inputs) (outOc f : String) :
    TameL (layerInstrs inp outOc f) := by
  unfold layerInstrs
  cases dlookup f inp.cb with
  | none => exact tameL_single (tame_raise _)
  | some e =>
    simp only
    split
    · exact tameL_cons (tame_call_gdb _ _ _) (tameL_postInstrs _ _ _ _ _)
    · exact tameL_cons (tame_call_gdb _ _ _) (tameL_postInstrs _ _ _ _ _)
    · exact tameL_append
        (tameL_cons (tame_call_id _ _) (tameL_cons (tame_call_id _ _)
          (tameL_cons (tame_call_id _ _) (tameL_cons (tame_call_gdb _ _ _)
            (tameL_single (tame_call_id _ _))))))
        (tameL_postInstrs _ _ _ _ _)
    · exact tameL_cons (tame_call_gdb _ _ _) (tameL_postInstrs _ _ _ _ _)
    · exact tameL_cons (tame_call_gdb _ _ _) (tameL_postInstrs _ _ _ _ _)
    · exact tameL_nil

theorem tameL_mdFcInstrs (inp : Inputs) (reg : List (String × String)) (fc : String) :
    TameL (mdFcInstrs inp reg fc) := by
  unfold mdFcInstrs
  cases dlookup fc reg with
  | none => exact tameL_single (tame_raise _)
  | some layer =>
    simp only
    cases dlookup layer inp.mdDict with
    | none => exact tameL_single (tame_raise _)
    | some m =>
      simp only
      exact tameL_ite tameL_nil (tameL_single (tame_call_id _ _))

/-- Tame instruction sequences preserve the scratch flag through execution,
whether or not the execution fails. -/
theorem exec_tame_scratch (l : List Instr) (h : TameL l) (fa : Option Nat) (n : Nat)
    (c : Core) (tr : List Event) :
    (exec l fa n c tr).core.scratchExists = c.scratchExists := by
  induction l generalizing n c tr with
  | nil => rfl
  | cons i l ih =>
    have hi := h i (List.mem_cons_self _ _)
    have hl : TameL l := fun j hj => h j (List.mem_cons_of_mem _ hj)
    cases i with
    | call cl =>
      by_cases hf : fa = some n
      · simp [exec, hf]
      · simp only [exec, if_neg hf]
        rw [ih hl]
        exact (hi c).1
    | eff g =>
      simp only [exec]
      rw [ih hl]
      exact (hi c).1
    | raiseErr e2 => rfl

/-- Tame instruction sequences preserve the scratch flag under `applyAll`. -/
theorem applyAll_tame_scratch (l : List Instr) (h : TameL l) (c : Core) :
    (applyAll l c).scratchExists = c.scratchExists := by
  induction l generalizing c with
  | nil => rfl
  | cons i l ih =>
    rw [applyAll_cons, ih (fun j hj => h j (List.mem_cons_of_mem _ hj))]
    exact (h i (List.mem_cons_self _ _) c).1

/-- Tame instruction sequences preserve registry-key membership under
`applyAll`. -/
theorem applyAll_tame_reg (l : List Instr) (h : TameL l) (c : Core) (k : String)
    (hk : k ∈ c.reg.map Prod.fst) : k ∈ (applyAll l c).reg.map Prod.fst := by
  induction l generalizing c with
  | nil => exact hk
  | cons i l ih =>
    rw [applyAll_cons]
    exact ih (fun j hj => h j (List.mem_cons_of_mem _ hj)) _
      ((h i (List.mem_cons_self _ _) c).2 k hk)

/-- The setup phase normalises the state: whatever the initial file system
looked like, after `scratch_gdb("create")`, the imports and `create_gdb()`
both geodatabases exist, the year geodatabase is empty, and the registry and
alias table are untouched. -/
theorem applyAll_importInstrs (inp : Inputs) (c : Core) :
    applyAll (importInstrs inp) c = c := by
  unfold importInstrs
  rw [applyAll_append]
  by_cases h1 : 0 < inp.shpCount
  · by_cases h2 : 0 < inp.tblCount
    · rw [if_pos h1, if_pos h2]; rfl
    · rw [if_pos h1, if_neg h2]; rfl
  · by_cases h2 : 0 < inp.tblCount
    · rw [if_neg h1, if_pos h2]; rfl
    · rw [if_neg h1, if_neg h2]; rfl

theorem applyAll_setup (inp : Inputs) (fs : FS) :
    applyAll (setupInstrs inp fs) (coreInit fs) = ⟨true, true, [], [], []⟩ := by
  obtain ⟨se, te⟩ := fs
  unfold setupInstrs
  rw [applyAll_append, applyAll_append, applyAll_importInstrs]
  cases se <;> cases te <;> rfl

/-- The setup phase contains no raise and executes without failure when no
failure is injected. -/
theorem setup_notRaise (inp : Inputs) (fs : FS) : ∀ i ∈ setupInstrs inp fs, notRaise i := by
  intro i hi
  unfold setupInstrs at hi
  rcases List.mem_append.1 hi with h | h
  · rcases List.mem_append.1 h with h2 | h2
    · unfold scratchCreateInstrs at h2
      rcases List.mem_append.1 h2 with h3 | h3
      · split at h3
        · simp only [List.mem_singleton] at h3
          exact h3 ▸ trivial
        · exact absurd h3 (List.not_mem_nil i)
      · simp only [List.mem_singleton] at h3
        exact h3 ▸ trivial
    · unfold importInstrs at h2
      rcases List.mem_append.1 h2 with h3 | h3 <;>
        (split at h3
         · simp only [List.mem_singleton] at h3
           exact h3 ▸ trivial
         · exact absurd h3 (List.not_mem_nil i))
  · unfold createGdbInstrs at h
    split at h
    · simp only [List.mem_singleton] at h
      exact h ▸ trivial
    · rcases List.mem_cons.1 h with h3 | h3
      · exact h3 ▸ trivial
      · simp only [List.mem_singleton] at h3
        exact h3 ▸ trivial

theorem countyInstrs_notRaise (inp : Inputs) (ce : CbEntry) :
    ∀ i ∈ countyInstrs inp ce, notRaise i := by
  intro i hi
  unfold countyInstrs at hi
  rcases List.mem_append.1 hi with h | h
  · rcases List.mem_cons.1 h with h2 | h2
    · exact h2 ▸ trivial
    · simp only [List.mem_singleton] at h2
      exact h2 ▸ trivial
  · split at h
    · simp only [List.mem_singleton] at h
      exact h ▸ trivial
    · exact absurd h (List.not_mem_nil i)

/-! Effects of one dispatch-loop iteration on the state. -/

/-- Effect of the shared emptiness check, starting from the state in which
the branch's geoprocessing call has just written `out` into the geodatabase
under `code`. -/
theorem post_effects (out : List Row) (f outFc code al : String) (c : Core) :
    (out = [] →
      (applyAll (postInstrs f outFc code al out) { c with gdb := dinsert c.gdb code out }).reg
          = c.reg ∧
      (applyAll (postInstrs f outFc code al out) { c with gdb := dinsert c.gdb code out }).aliases
          = c.aliases ∧
      dlookup code
        (applyAll (postInstrs f outFc code al out) { c with gdb := dinsert c.gdb code out }).gdb
          = none) ∧
    (out ≠ [] →
      (applyAll (postInstrs f outFc code al out) { c with gdb := dinsert c.gdb code out }).reg
          = dinsert c.reg code f ∧
      dlookup outFc
        (applyAll (postInstrs f outFc code al out) { c with gdb := dinsert c.gdb code out }).aliases
          = some al ∧
      dlookup code
        (applyAll (postInstrs f outFc code al out) { c with gdb := dinsert c.gdb code out }).gdb
          = some out) := by
  constructor
  · intro hout
    have hlen : out.length = 0 := by simp [hout]
    simp only [postInstrs]
    rw [if_pos hlen]
    simp only [applyAll_cons, applyAll_append, applyAll_nil, applyInstr]
    simp [dlookup_dremove]
  · intro hout
    have hlen : ¬out.length = 0 := by simpa [List.length_eq_zero] using hout
    simp only [postInstrs]
    rw [if_neg hlen]
    simp only [applyAll_cons, applyAll_append, applyAll_nil, applyInstr]
    simp [dlookup_dinsert]

/-- Effect of one dispatch-loop iteration, for each of the five effective
methods: an empty output is deleted, leaving the registry and alias table
untouched and the code unbound in the geodatabase; a nonempty output leaves
the code registered to the layer, the alias set, and the output stored. -/
theorem layer_effects (inp : Inputs) (outOc f : String) (e : CbEntry) (c : Core)
    (hcb : dlookup f inp.cb = some e)
    (hm : e.method = "clip" ∨ e.method = "copy" ∨ e.method = "within" ∨
      e.method = "query" ∨ e.method = "query20") :
    (layerOut inp f e.method = [] →
      (applyAll (layerInstrs inp outOc f) c).reg = c.reg ∧
      (applyAll (layerInstrs inp outOc f) c).aliases = c.aliases ∧
      dlookup e.code2 (applyAll (layerInstrs inp outOc f) c).gdb = none) ∧
    (layerOut inp f e.method ≠ [] →
      (applyAll (layerInstrs inp outOc f) c).reg = dinsert c.reg e.code2 f ∧
      dlookup (pjoin (tlGdbPath inp.year) e.code2)
        (applyAll (layerInstrs inp outOc f) c).aliases = some e.aliasName ∧
      dlookup e.code2 (applyAll (layerInstrs inp outOc f) c).gdb
        = some (layerOut inp f e.method)) := by
  obtain ⟨code, m, al⟩ := e
  simp only at hm ⊢
  rcases hm with hm | hm | hm | hm | hm <;> subst hm <;>
    simpa only [layerInstrs, hcb, applyAll_cons, applyInstr] using
      post_effects _ f (pjoin (tlGdbPath inp.year) code) code al c

/-! Structure of a failure-free run. -/

/-- The normalised state after the setup phase. -/
def coreReady : Core := ⟨true, true, [], [], []⟩

theorem compileRun_eq (inp : Inputs) (fs : FS) :
    compileRun inp fs = setupInstrs inp fs ++ tailInstrs inp coreReady := by
  unfold compileRun
  rw [applyAll_setup]
  rfl

/-- A successful failure-free run returns the registry computed by the tail
from the normalised post-setup state, ends in that state, and emits the setup
events followed by the tail events. -/
theorem run_none_ok_eq (inp : Inputs) (fs : FS) (l : List (String × String))
    (h : (process_shapefiles inp fs none).res = .ok l) :
    l = (applyAll (tailInstrs inp coreReady) coreReady).reg ∧
    (process_shapefiles inp fs none).core = applyAll (tailInstrs inp coreReady) coreReady ∧
    (process_shapefiles inp fs none).trace =
      evtsOf (setupInstrs inp fs) ++ evtsOf (tailInstrs inp coreReady) := by
  unfold process_shapefiles at h ⊢
  have h2 := exec_ok_eq _ _ _ _ _ _ h
  have h3 : applyAll (compileRun inp fs) (coreInit fs) =
      applyAll (tailInstrs inp coreReady) coreReady := by
    rw [compileRun_eq, applyAll_append, applyAll_setup]
    rfl
  have h4 : evtsOf (compileRun inp fs) =
      evtsOf (setupInstrs inp fs) ++ evtsOf (tailInstrs inp coreReady) := by
    rw [compileRun_eq, evtsOf_append]
  rw [h2] at h
  refine ⟨by injection h with h5; rw [← h5, h3], ?_, ?_⟩
  · rw [h2, h3]
  · rw [h2]
    simpa using h4

/-- A successful failure-free run implies the county layer has a codebook
entry and appears in the raw-data scan (else the run would have aborted with
an uncaught KeyError or ValueError). -/
theorem run_ok_tail_shape (inp : Inputs) (fs : FS) (l : List (String × String))
    (h : (process_shapefiles inp fs none).res = .ok l) :
    ∃ ce fcl, dlookup "us_county" inp.cb = some ce ∧
      removeFirst (inp.scratchFcs.map (stripTl inp.year)) "us_county" = some fcl := by
  unfold process_shapefiles at h
  rw [compileRun_eq] at h
  rw [exec_append_ok _ _ _ _ _ _ _ (exec_none_ok _ (setup_notRaise inp fs) _ _ _)] at h
  cases hcb : dlookup "us_county" inp.cb with
  | none =>
    exfalso
    unfold tailInstrs at h
    rw [hcb] at h
    simp [exec] at h
  | some ce =>
    cases hrm : removeFirst (inp.scratchFcs.map (stripTl inp.year)) "us_county" with
    | none =>
      exfalso
      unfold tailInstrs at h
      rw [hcb] at h
      simp only at h
      rw [hrm] at h
      simp only at h
      rw [exec_append_ok _ _ _ _ _ _ _
        (exec_none_ok _ (countyInstrs_notRaise inp ce) _ _ _)] at h
      simp [exec] at h
    | some fcl => exact ⟨ce, fcl, rfl, rfl⟩

theorem reg_applyAll_ifdel (b : Prop) [Decidable b] (c : Core) :
    (applyAll (if b then
        [Instr.call ⟨.geoproc, .del scratchPath, fun c => { c with scratchExists := false }⟩]
      else []) c).reg = c.reg := by
  split <;> rfl

/-- In every successful failure-free run's returned registry, "CO" is a key:
the county code is registered unconditionally (octl.py 1121). -/
theorem run_ok_CO (inp : Inputs) (fs : FS) (l : List (String × String))
    (h : (process_shapefiles inp fs none).res = .ok l) : "CO" ∈ l.map Prod.fst := by
  obtain ⟨ce, fcl, hcb, hrm⟩ := run_ok_tail_shape inp fs l h
  obtain ⟨hl, -, -⟩ := run_none_ok_eq inp fs l h
  subst hl
  unfold tailInstrs
  rw [hcb]
  simp only
  rw [hrm]
  simp only
  rw [applyAll_append, applyAll_append, applyAll_append]
  have hsave : ∀ c : Core, (applyAll
      [Instr.call ⟨.metaApi, .saveGdbMeta (tlGdbPath inp.year), fun c => c⟩] c).reg = c.reg :=
    fun c => rfl
  rw [hsave, reg_applyAll_ifdel]
  refine applyAll_tame_reg _ (tameL_flatMap (fun x _ => tameL_mdFcInstrs inp _ x)) _ _ ?_
  rw [applyAll_append, applyAll_append]
  refine applyAll_tame_reg _
    (tameL_flatten (fun li hli => ?_)) _ _ ?_
  · obtain ⟨g, hg, rfl⟩ := List.mem_map.1 hli
    exact tameL_layerInstrs inp _ g
  · exact mem_keys_dinsert_self _ _ _

/-! Claim C1. -/

/-- Concrete run refuting C1 as stated: the national county file holds a
single row with state FIPS 12, so the county select is empty and the county
output is deleted, yet the returned registry still maps "CO" to "us_county". -/
def c1cInputs : Inputs where
  year := 2020
  cb := [("us_county", ⟨"CO", "query", "County"⟩)]
  scratchFcs := ["tl_2020_us_county"]
  content := fun _ => [⟨"12", "086", "12", "086"⟩]
  clipRes := fun _ => []
  near := fun _ => false
  mdDict := []
  mdReadOnly := false
  shpCount := 1
  tblCount := 0

/-- C1 counterexample: in the run on `c1cInputs` the county select is empty,
its output is deleted (the final year geodatabase holds no feature class at
all), yet `process_shapefiles` returns a registry containing the code "CO" —
so it is not true that a layer whose filtered row count is zero never appears
in the returned registry, and the claimed post-condition does not hold for
the county layer produced before the dispatch loop. -/
theorem claim_C1_counterexample :
    (process_shapefiles c1cInputs ⟨false, false⟩ none).res = .ok [("CO", "us_county")] ∧
    (process_shapefiles c1cInputs ⟨false, false⟩ none).core.gdb = [] ∧
    (process_shapefiles c1cInputs ⟨false, false⟩ none).core.aliases = [] := by
  refine ⟨?_, ?_, ?_⟩ <;> rfl

/-- C1 (amended): for every layer processed by the dispatch loop with method
`clip`, `copy`, `within`, `query` or `query20`, the post-condition holds: a
zero row count leaves the registry and alias table untouched and the output
deleted; a nonzero row count registers the code (mapped to the layer name),
stores the output, and sets the display alias from the codebook.  The county
layer produced before the loop is the exception: its code "CO" is a key of
the returned registry of every successful run unconditionally, even when its
filtered row count was zero and its output was deleted, and no alias is set
for it. -/
theorem claim_C1_amended (inp : Inputs) (outOc f : String) (e : CbEntry) (c : Core)
    (hcb : dlookup f inp.cb = some e)
    (hm : e.method = "clip" ∨ e.method = "copy" ∨ e.method = "within" ∨
      e.method = "query" ∨ e.method = "query20") :
    ((layerOut inp f e.method = [] →
      (applyAll (layerInstrs inp outOc f) c).reg = c.reg ∧
      (applyAll (layerInstrs inp outOc f) c).aliases = c.aliases ∧
      dlookup e.code2 (applyAll (layerInstrs inp outOc f) c).gdb = none) ∧
    (layerOut inp f e.method ≠ [] →
      (applyAll (layerInstrs inp outOc f) c).reg = dinsert c.reg e.code2 f ∧
      dlookup (pjoin (tlGdbPath inp.year) e.code2)
        (applyAll (layerInstrs inp outOc f) c).aliases = some e.aliasName ∧
      dlookup e.code2 (applyAll (layerInstrs inp outOc f) c).gdb
        = some (layerOut inp f e.method))) ∧
    (∀ fs l, (process_shapefiles inp fs none).res = .ok l → "CO" ∈ l.map Prod.fst) :=
  ⟨layer_effects inp outOc f e c hcb hm, fun fs l h => run_ok_CO inp fs l h⟩

/-- Concrete inputs exercising the amended C1: a nonempty `copy` layer. -/
def c1wMeta : FcMeta := ⟨"t", "g", "s", "d", "c", "a", "u"⟩

def c1wInputs : Inputs where
  year := 2020
  cb := [("us_county", ⟨"CO", "query", "County"⟩), ("06059_roads", ⟨"RD", "copy", "Roads"⟩)]
  scratchFcs := ["tl_2020_us_county", "tl_2020_06059_roads"]
  content := fun _ => [⟨"06", "059", "06", "059"⟩]
  clipRes := fun _ => []
  near := fun _ => false
  mdDict := [("us_county", c1wMeta), ("06059_roads", c1wMeta)]
  mdReadOnly := false
  shpCount := 2
  tblCount := 0

/-- Witness for the amended C1: the nonzero-count branch registers the code
and the successful concrete run's registry has "CO" among its keys. -/
theorem claim_C1_witness :
    (applyAll (layerInstrs c1wInputs (pjoin (tlGdbPath 2020) "CO") "06059_roads")
        coreReady).reg = dinsert coreReady.reg "RD" "06059_roads" ∧
    "CO" ∈ ([("CO", "us_county"), ("RD", "06059_roads")] : List (String × String)).map
      Prod.fst := by
  have ha := claim_C1_amended c1wInputs (pjoin (tlGdbPath 2020) "CO") "06059_roads"
    ⟨"RD", "copy", "Roads"⟩ coreReady (by decide) (Or.inr (Or.inl rfl))
  refine ⟨(ha.1.2 (by decide)).1, ?_⟩
  exact ha.2 ⟨false, false⟩ [("CO", "us_county"), ("RD", "06059_roads")] (by rfl)

/-! Claim C2. -/

/-- C2: for a layer with method `query`, the output rows are exactly the
input rows with state FIPS "06" and county FIPS "059" (no other rows), and
that output is what ends up stored under the layer's code (unless empty, in
which case the code is unbound); for method `query20` the identical filter is
applied over the suffixed fields. -/
theorem claim_C2 (inp : Inputs) (outOc f : String) (e : CbEntry) (c : Core) (r : Row)
    (hcb : dlookup f inp.cb = some e) :
    (e.method = "query" →
      (r ∈ layerOut inp f "query" ↔
        r ∈ inp.content (tlName inp.year f) ∧ r.statefp = "06" ∧ r.countyfp = "059") ∧
      dlookup e.code2 (applyAll (layerInstrs inp outOc f) c).gdb =
        if layerOut inp f "query" = [] then none else some (layerOut inp f "query")) ∧
    (e.method = "query20" →
      (r ∈ layerOut inp f "query20" ↔
        r ∈ inp.content (tlName inp.year f) ∧ r.statefp20 = "06" ∧ r.countyfp20 = "059") ∧
      dlookup e.code2 (applyAll (layerInstrs inp outOc f) c).gdb =
        if layerOut inp f "query20" = [] then none else some (layerOut inp f "query20")) := by
  constructor
  · intro hm
    constructor
    · simp [layerOut, List.mem_filter, rowFips]
    · have h := layer_effects inp outOc f e c hcb (Or.inr (Or.inr (Or.inr (Or.inl hm))))
      rw [hm] at h
      by_cases hz : layerOut inp f "query" = []
      · rw [if_pos hz]
        exact (h.1 hz).2.2
      · rw [if_neg hz]
        exact (h.2 hz).2.2
  · intro hm
    constructor
    · simp [layerOut, List.mem_filter, rowFips20]
    · have h := layer_effects inp outOc f e c hcb (Or.inr (Or.inr (Or.inr (Or.inr hm))))
      rw [hm] at h
      by_cases hz : layerOut inp f "query20" = []
      · rw [if_pos hz]
        exact (h.1 hz).2.2
      · rw [if_neg hz]
        exact (h.2 hz).2.2

/-- Concrete inputs exercising C2: a `query` layer with one matching and one
non-matching row. -/
def c2wInputs : Inputs where
  year := 2020
  cb := [("us_county", ⟨"CO", "query", "County"⟩), ("us_aiannh", ⟨"AI", "query", "Areas"⟩)]
  scratchFcs := ["tl_2020_us_county", "tl_2020_us_aiannh"]
  content := fun _ => [⟨"06", "059", "06", "059"⟩, ⟨"12", "086", "12", "086"⟩]
  clipRes := fun _ => []
  near := fun _ => false
  mdDict := []
  mdReadOnly := false
  shpCount := 2
  tblCount := 0

/-- Witness for C2: on `c2wInputs` the matching row is in the `query` output
of layer `us_aiannh`, and the stored output is exactly the filtered rows. -/
theorem claim_C2_witness :
    ((⟨"06", "059", "06", "059"⟩ : Row) ∈ layerOut c2wInputs "us_aiannh" "query" ↔
      (⟨"06", "059", "06", "059"⟩ : Row) ∈ c2wInputs.content (tlName 2020 "us_aiannh") ∧
        ("06" : String) = "06" ∧ ("059" : String) = "059") ∧
    dlookup "AI" (applyAll (layerInstrs c2wInputs (pjoin (tlGdbPath 2020) "CO") "us_aiannh")
        coreReady).gdb =
      if layerOut c2wInputs "us_aiannh" "query" = [] then none
      else some (layerOut c2wInputs "us_aiannh" "query") :=
  (claim_C2 c2wInputs (pjoin (tlGdbPath 2020) "CO") "us_aiannh" ⟨"AI", "query", "Areas"⟩
    coreReady ⟨"06", "059", "06", "059"⟩ (by decide)).1 rfl

/-! Claim C7. -/

theorem evtsOf_postInstrs (f outFc code al : String) (out : List Row) :
    evtsOf (postInstrs f outFc code al out) =
      [Event.getCount outFc] ++
        (if out = [] then [Event.del outFc] else [Event.alterAlias outFc al]) := by
  by_cases h : out = []
  · simp [postInstrs, evtsOf, h]
  · have hlen : ¬out.length = 0 := by simpa [List.length_eq_zero] using h
    simp [postInstrs, evtsOf, h, hlen]

/-- C7: for a layer with method `within`, the output rows are exactly the
input rows satisfying the abstract within-distance predicate against the
county boundary output — nothing else is included; the emitted vendor calls
are: make the temporary in-memory layer, count it, spatially select
WITHIN_A_DISTANCE of the county output at search distance "-1000 Feet" with
NEW_SELECTION and NOT_INVERT, materialize the selection into the year
geodatabase under the layer's two-letter code, delete the temporary layer,
then run the emptiness check; and the selection is what ends up stored under
the code (unless empty, in which case the code is unbound). -/
theorem claim_C7 (inp : Inputs) (outOc f : String) (e : CbEntry) (c : Core)
    (hcb : dlookup f inp.cb = some e) (hm : e.method = "within") :
    (∀ r, r ∈ layerOut inp f "within" ↔
      r ∈ inp.content (tlName inp.year f) ∧ inp.near r = true) ∧
    evtsOf (layerInstrs inp outOc f) =
      [Event.makeLayer (pjoin scratchPath (tlName inp.year f)) "temp_lyr",
       Event.getCount "temp_lyr",
       Event.selByLoc "temp_lyr" "WITHIN_A_DISTANCE" outOc "-1000 Feet" "NEW_SELECTION"
         "NOT_INVERT",
       Event.exportFc "temp_lyr" (tlGdbPath inp.year) e.code2,
       Event.del "temp_lyr",
       Event.getCount (pjoin (tlGdbPath inp.year) e.code2)] ++
      (if layerOut inp f "within" = [] then [Event.del (pjoin (tlGdbPath inp.year) e.code2)]
       else [Event.alterAlias (pjoin (tlGdbPath inp.year) e.code2) e.aliasName]) ∧
    dlookup e.code2 (applyAll (layerInstrs inp outOc f) c).gdb =
      if layerOut inp f "within" = [] then none else some (layerOut inp f "within") := by
  refine ⟨?_, ?_, ?_⟩
  · intro r
    simp [layerOut, List.mem_filter]
  · obtain ⟨code, m, al⟩ := e
    simp only at hm
    subst hm
    simp only [layerInstrs, hcb]
    rw [evtsOf_append, evtsOf_postInstrs]
    rfl
  · have h := layer_effects inp outOc f e c hcb (Or.inr (Or.inr (Or.inl hm)))
    rw [hm] at h
    by_cases hz : layerOut inp f "within" = []
    · rw [if_pos hz]
      exact (h.1 hz).2.2
    · rw [if_neg hz]
      exact (h.2 hz).2.2

/-- Concrete inputs exercising C7: a `within` layer with one near and one far
row. -/
def c7wInputs : Inputs where
  year := 2020
  cb := [("us_county", ⟨"CO", "query", "County"⟩), ("us_rails", ⟨"RL", "within", "Rails"⟩)]
  scratchFcs := ["tl_2020_us_county", "tl_2020_us_rails"]
  content := fun _ => [⟨"06", "059", "06", "059"⟩, ⟨"12", "086", "12", "086"⟩]
  clipRes := fun _ => []
  near := fun r => r.statefp == "06"
  mdDict := []
  mdReadOnly := false
  shpCount := 2
  tblCount := 0

/-- Witness for C7 on `c7wInputs` for the near row of layer `us_rails`. -/
theorem claim_C7_witness :
    ((⟨"06", "059", "06", "059"⟩ : Row) ∈ layerOut c7wInputs "us_rails" "within" ↔
      (⟨"06", "059", "06", "059"⟩ : Row) ∈ c7wInputs.content (tlName 2020 "us_rails") ∧
        c7wInputs.near ⟨"06", "059", "06", "059"⟩ = true) ∧
    dlookup "RL" (applyAll (layerInstrs c7wInputs (pjoin (tlGdbPath 2020) "CO") "us_rails")
        coreReady).gdb =
      if layerOut c7wInputs "us_rails" "within" = [] then none
      else some (layerOut c7wInputs "us_rails" "within") := by
  have h := claim_C7 c7wInputs (pjoin (tlGdbPath 2020) "CO") "us_rails"
    ⟨"RL", "within", "Rails"⟩ coreReady (by decide) rfl
  exact ⟨h.1 _, h.2.2⟩

/-! Claim C5. -/

/-- Concrete inputs whose raw-data scan lists a layer (`06059_roads`) that
has no codebook entry. -/
def c5cInputs : Inputs where
  year := 2020
  cb := [("us_county", ⟨"CO", "query", "County"⟩)]
  scratchFcs := ["tl_2020_us_county", "tl_2020_06059_roads"]
  content := fun _ => [⟨"06", "059", "06", "059"⟩]
  clipRes := fun _ => []
  near := fun _ => false
  mdDict := [("us_county", ⟨"t", "g", "s", "d", "c", "a", "u"⟩)]
  mdReadOnly := false
  shpCount := 2
  tblCount := 0

/-- C5: a layer of the raw-data scan with no codebook entry makes the
dispatch-loop iteration raise a KeyError at the very first thing it does (the
`code2` lookup), leaving state, trace and call counter untouched — nothing
checks or handles the missing key first — and the error propagates uncaught
out of the whole of `process_shapefiles`, as the concrete run on `c5cInputs`
shows. -/
theorem claim_C5 :
    (∀ (inp : Inputs) (outOc f : String) (fa : Option Nat) (n : Nat) (c : Core)
      (tr : List Event), dlookup f inp.cb = none →
      exec (layerInstrs inp outOc f) fa n c tr = ⟨.error (.keyError f), c, tr, n⟩) ∧
    (process_shapefiles c5cInputs ⟨false, false⟩ none).res =
      .error (.keyError "06059_roads") := by
  constructor
  · intro inp outOc f fa n c tr h
    simp [layerInstrs, h, exec]
  · rfl

/-- Witness for C5 at concrete arguments: the missing layer's iteration
raises the KeyError immediately. -/
theorem claim_C5_witness :
    exec (layerInstrs c5cInputs (pjoin (tlGdbPath 2020) "CO") "06059_roads") none 3
        coreReady [] =
      ⟨.error (.keyError "06059_roads"), coreReady, [], 3⟩ :=
  claim_C5.1 c5cInputs (pjoin (tlGdbPath 2020) "CO") "06059_roads" none 3 coreReady []
    (by decide)

/-! Claim C3. -/

/-- The targets of the metadata-application loop's save calls in a trace. -/
def mdTargets (tr : List Event) : List String :=
  tr.flatMap fun e => match e with
    | .mdSave t _ _ => [t]
    | _ => []

/-- Metadata record of the county layer in the C3 run. -/
def c3Meta : FcMeta :=
  ⟨"OCTL 2020 County Title", "tags", "summary", "description", "credits", "access", "uri"⟩

/-- Concrete run for C3: one surviving feature class ("CO"). -/
def c3Inputs : Inputs where
  year := 2020
  cb := [("us_county", ⟨"CO", "query", "County"⟩)]
  scratchFcs := ["tl_2020_us_county"]
  content := fun _ => [⟨"06", "059", "06", "059"⟩]
  clipRes := fun _ => []
  near := fun _ => false
  mdDict := [("us_county", c3Meta)]
  mdReadOnly := false
  shpCount := 1
  tblCount := 0

/-- C3 (code bug): in the run on `c3Inputs` the metadata-application loop
builds the surviving feature class's codebook-derived metadata record, but
the metadata object it copies it into is constructed from the geodatabase
path (`md.Metadata(tl_gdb)`, octl.py 1255), not from the feature class: the
only save of the loop targets "gis/TL2020.gdb", and no save targets the
feature class "gis/TL2020.gdb/CO" — so the surviving feature class does not
end up carrying its own metadata. -/
theorem claim_C3 :
    Event.mdSave (tlGdbPath 2020) "us_county" c3Meta ∈
      (process_shapefiles c3Inputs ⟨false, false⟩ none).trace ∧
    mdTargets (process_shapefiles c3Inputs ⟨false, false⟩ none).trace = [tlGdbPath 2020] ∧
    pjoin (tlGdbPath 2020) "CO" ∉
      mdTargets (process_shapefiles c3Inputs ⟨false, false⟩ none).trace ∧
    (process_shapefiles c3Inputs ⟨false, false⟩ none).core.gdb =
      [("CO", [⟨"06", "059", "06", "059"⟩])] := by
  refine ⟨?_, ?_, ?_, ?_⟩ <;> decide

/-! Claim C8. -/

/-- The result and final state of a failure-free run do not depend on the
initial file-system state: the scratch and year geodatabases are deleted and
recreated by the setup phase, which normalises the state before anything
else runs. -/
theorem run_none_fs_independent (inp : Inputs) (fs fs2 : FS) :
    (process_shapefiles inp fs none).res = (process_shapefiles inp fs2 none).res ∧
    (process_shapefiles inp fs none).core = (process_shapefiles inp fs2 none).core := by
  unfold process_shapefiles
  rw [compileRun_eq inp fs, compileRun_eq inp fs2]
  rw [exec_append_ok _ _ _ _ _ _ _ (exec_none_ok _ (setup_notRaise inp fs) _ _ _),
      exec_append_ok _ _ _ _ _ _ _ (exec_none_ok _ (setup_notRaise inp fs2) _ _ _)]
  rw [exec_ok_eq _ _ _ _ _ _ (exec_none_ok _ (setup_notRaise inp fs) _ _ _),
      exec_ok_eq _ _ _ _ _ _ (exec_none_ok _ (setup_notRaise inp fs2) _ _ _)]
  simp only [applyAll_setup]
  exact exec_none_shift _ _ _ _ _ _

/-- C8: re-running `process_shapefiles` on the same inputs gives the same
returned registry and the same produced year-geodatabase contents and alias
table as the first run — in particular when the second run starts from the
file-system state the first run left behind — because both geodatabases are
deleted and recreated at the start of every run, so nothing drifts or
duplicates across repeated runs. -/
theorem claim_C8 (inp : Inputs) (fs fs2 : FS) :
    ((process_shapefiles inp fs2 none).res = (process_shapefiles inp fs none).res ∧
     (process_shapefiles inp fs2 none).core.gdb = (process_shapefiles inp fs none).core.gdb ∧
     (process_shapefiles inp fs2 none).core.aliases =
       (process_shapefiles inp fs none).core.aliases) ∧
    ((process_shapefiles inp
        ⟨(process_shapefiles inp fs none).core.scratchExists,
         (process_shapefiles inp fs none).core.tlExists⟩ none).res =
       (process_shapefiles inp fs none).res ∧
     (process_shapefiles inp
        ⟨(process_shapefiles inp fs none).core.scratchExists,
         (process_shapefiles inp fs none).core.tlExists⟩ none).core.gdb =
       (process_shapefiles inp fs none).core.gdb) := by
  obtain ⟨h1, h2⟩ := run_none_fs_independent inp fs2 fs
  obtain ⟨h3, h4⟩ := run_none_fs_independent inp
    ⟨(process_shapefiles inp fs none).core.scratchExists,
     (process_shapefiles inp fs none).core.tlExists⟩ fs
  exact ⟨⟨h1, by rw [h2], by rw [h2]⟩, ⟨h3, by rw [h4]⟩⟩

/-! Claim C6. -/

/-- Events of the setup phase (imports and geodatabase creation/deletion). -/
def isSetupEvt : Event → Bool
  | .shpImport _ _ => true
  | .tblImport _ _ => true
  | .del _ => true
  | .createFileGdb _ _ => true
  | _ => false

/-- Dispatch-loop geoprocessing events. -/
def isDispatchEvt : Event → Bool
  | .clipOp _ _ _ => true
  | .copyOp _ _ => true
  | .makeLayer _ _ => true
  | .selByLoc _ _ _ _ _ _ => true
  | .exportFc _ _ _ => true
  | .sel _ _ _ => true
  | _ => false

/-- Whether an event's county-boundary reference (the clip features of
`Clip`, the select features of `SelectLayerByLocation`) is the given path;
trivially true for events that take no such reference. -/
def usesCountyB (outOc : String) : Event → Bool
  | .clipOp _ b _ => b == outOc
  | .selByLoc _ _ sfeat _ _ _ => sfeat == outOc
  | _ => true

theorem isSetupEvt_not_dispatch (e : Event) (h : isSetupEvt e = true) :
    isDispatchEvt e = false := by
  cases e <;> simp [isSetupEvt, isDispatchEvt] at h ⊢

theorem isSetupEvt_uses (oc : String) (e : Event) (h : isSetupEvt e = true) :
    usesCountyB oc e = true := by
  cases e <;> simp [isSetupEvt, usesCountyB] at h ⊢

theorem scratchCreate_evts_setup (b : Bool) :
    ∀ e ∈ evtsOf (scratchCreateInstrs b), isSetupEvt e = true := by
  cases b <;> intro e he <;> simp [scratchCreateInstrs, evtsOf] at he
  · subst he; rfl
  · rcases he with he | he <;> (subst he; rfl)

theorem import_evts_setup (inp : Inputs) :
    ∀ e ∈ evtsOf (importInstrs inp), isSetupEvt e = true := by
  intro e he
  unfold importInstrs at he
  rw [evtsOf_append] at he
  rcases List.mem_append.1 he with h | h
  · split at h
    · simp [evtsOf] at h
      subst h; rfl
    · simp [evtsOf] at h
  · split at h
    · simp [evtsOf] at h
      subst h; rfl
    · simp [evtsOf] at h

theorem createGdb_evts_setup (b : Bool) (y : Nat) :
    ∀ e ∈ evtsOf (createGdbInstrs b y), isSetupEvt e = true := by
  cases b <;> intro e he <;> simp [createGdbInstrs, evtsOf] at he
  · subst he; rfl
  · rcases he with he | he <;> (subst he; rfl)

theorem setup_evts_setup (inp : Inputs) (fs : FS) :
    ∀ e ∈ evtsOf (setupInstrs inp fs), isSetupEvt e = true := by
  intro e he
  unfold setupInstrs at he
  rw [evtsOf_append, evtsOf_append] at he
  rcases List.mem_append.1 he with h | h
  · rcases List.mem_append.1 h with h2 | h2
    · exact scratchCreate_evts_setup _ e h2
    · exact import_evts_setup inp e h2
  · exact createGdb_evts_setup _ _ e h

theorem evtsOf_countyInstrs (inp : Inputs) (ce : CbEntry) :
    evtsOf (countyInstrs inp ce) =
      Event.sel (pjoin scratchPath (tlName inp.year "us_county"))
          (pjoin (tlGdbPath inp.year) ce.code2) fipsWhere ::
        Event.getCount (pjoin (tlGdbPath inp.year) ce.code2) ::
        (if ((inp.content (tlName inp.year "us_county")).filter rowFips).length = 0 then
          [Event.del (pjoin (tlGdbPath inp.year) ce.code2)]
        else []) := by
  unfold countyInstrs
  rw [evtsOf_append]
  split <;> rfl

theorem county_evts_uses (inp : Inputs) (ce : CbEntry) (oc : String) :
    ∀ e ∈ evtsOf (countyInstrs inp ce), usesCountyB oc e = true := by
  intro e he
  rw [evtsOf_countyInstrs] at he
  rcases List.mem_cons.1 he with h | h
  · subst h; rfl
  rcases List.mem_cons.1 h with h2 | h2
  · subst h2; rfl
  split at h2
  · simp at h2
    subst h2; rfl
  · simp at h2

theorem post_evts_uses (oc f outFc code al : String) (out : List Row) :
    ∀ e ∈ evtsOf (postInstrs f outFc code al out), usesCountyB oc e = true := by
  intro e he
  rw [evtsOf_postInstrs] at he
  rcases List.mem_append.1 he with h | h
  · simp at h
    subst h; rfl
  · split at h <;> simp at h <;> (subst h; rfl)

theorem layer_evts_uses (inp : Inputs) (outOc f : String) :
    ∀ e ∈ evtsOf (layerInstrs inp outOc f), usesCountyB outOc e = true := by
  intro e he
  unfold layerInstrs at he
  cases hcb : dlookup f inp.cb with
  | none =>
    rw [hcb] at he
    simp [evtsOf] at he
  | some en =>
    rw [hcb] at he
    simp only at he
    split at he
    · simp only [evtsOf, List.flatMap_cons] at he
      rcases List.mem_append.1 he with h | h
      · simp at h
        subst h
        simp [usesCountyB]
      · exact post_evts_uses _ _ _ _ _ _ e h
    · simp only [evtsOf, List.flatMap_cons] at he
      rcases List.mem_append.1 he with h | h
      · simp at h
        subst h; rfl
      · exact post_evts_uses _ _ _ _ _ _ e h
    · rw [evtsOf_append] at he
      rcases List.mem_append.1 he with h | h
      · simp [evtsOf] at h
        rcases h with h | h | h | h | h <;> subst h <;> simp [usesCountyB]
      · exact post_evts_uses _ _ _ _ _ _ e h
    · simp only [evtsOf, List.flatMap_cons] at he
      rcases List.mem_append.1 he with h | h
      · simp at h
        subst h; rfl
      · exact post_evts_uses _ _ _ _ _ _ e h
    · simp only [evtsOf, List.flatMap_cons] at he
      rcases List.mem_append.1 he with h | h
      · simp at h
        subst h; rfl
      · exact post_evts_uses _ _ _ _ _ _ e h
    · simp [evtsOf] at he

theorem md_evts_uses (inp : Inputs) (reg : List (String × String)) (fc : String)
    (oc : String) : ∀ e ∈ evtsOf (mdFcInstrs inp reg fc), usesCountyB oc e = true := by
  intro e he
  unfold mdFcInstrs at he
  cases h1 : dlookup fc reg with
  | none =>
    rw [h1] at he
    simp [evtsOf] at he
  | some layer =>
    rw [h1] at he
    simp only at he
    cases h2 : dlookup layer inp.mdDict with
    | none =>
      rw [h2] at he
      simp [evtsOf] at he
    | some m =>
      rw [h2] at he
      simp only at he
      split at he
      · simp [evtsOf] at he
      · simp [evtsOf] at he
        subst he; rfl

theorem evtsOf_flatMap {A : Type} (g : A → List Instr) (xs : List A) :
    evtsOf (xs.flatMap g) = xs.flatMap (fun x => evtsOf (g x)) := by
  induction xs with
  | nil => rfl
  | cons x xs ih => simp only [List.flatMap_cons, evtsOf_append, ih]

theorem flatten_map_eq_flatMap {A : Type} (g : A → List Instr) (xs : List A) :
    (xs.map g).flatten = xs.flatMap g := by
  induction xs with
  | nil => rfl
  | cons x xs ih => simp [List.flatMap_cons, ih]

/-- Python `list.remove` removes the only occurrence: with at most one
occurrence in the list, the element is absent from the result. -/
theorem removeFirst_not_mem (l : List String) (a : String) (l2 : List String)
    (hc : l.count a ≤ 1) (h : removeFirst l a = some l2) : a ∉ l2 := by
  induction l generalizing l2 with
  | nil => simp [removeFirst] at h
  | cons x xs ih =>
    rw [removeFirst] at h
    by_cases hx : x = a
    · rw [if_pos hx] at h
      injection h with h
      subst h
      subst hx
      have h2 := List.count_cons_self x xs
      have hz : xs.count x = 0 := by omega
      exact List.count_eq_zero.1 hz
    · rw [if_neg hx] at h
      cases ht : removeFirst xs a with
      | none =>
        rw [ht] at h
        simp at h
      | some t =>
        rw [ht] at h
        simp at h
        subst h
        have hcc : (x :: xs).count a = xs.count a :=
          List.count_cons_of_ne (fun hh => hx hh.symm) xs
        have hc2 : xs.count a ≤ 1 := by omega
        intro hmem
        rcases List.mem_cons.1 hmem with h2 | h2
        · exact hx h2.symm
        · exact ih t hc2 ht h2

/-- C6: in every successful failure-free run the county FIPS select is the
first geoprocessing event after the setup phase (whose events are only
imports and geodatabase create/delete, never dispatch operations), so it
precedes every dispatch-loop operation; every Clip call's clip features and
every SelectLayerByLocation call's select features in the whole trace are the
county boundary output path; and "us_county" is removed from the loop's layer
list (assuming the raw-data scan lists it at most once, as a directory
listing does). -/
theorem claim_C6 (inp : Inputs) (fs : FS) (ce : CbEntry) (l : List (String × String))
    (hcb : dlookup "us_county" inp.cb = some ce)
    (hnd : (inp.scratchFcs.map (stripTl inp.year)).count "us_county" ≤ 1)
    (hok : (process_shapefiles inp fs none).res = .ok l) :
    ∃ fcl t2,
      removeFirst (inp.scratchFcs.map (stripTl inp.year)) "us_county" = some fcl ∧
      "us_county" ∉ fcl ∧
      (process_shapefiles inp fs none).trace =
        evtsOf (setupInstrs inp fs) ++
          Event.sel (pjoin scratchPath (tlName inp.year "us_county"))
            (pjoin (tlGdbPath inp.year) ce.code2) fipsWhere :: t2 ∧
      (∀ e ∈ evtsOf (setupInstrs inp fs), isSetupEvt e = true ∧ isDispatchEvt e = false) ∧
      (∀ e ∈ (process_shapefiles inp fs none).trace,
        usesCountyB (pjoin (tlGdbPath inp.year) ce.code2) e = true) := by
  obtain ⟨ce2, fcl, hcb2, hrm⟩ := run_ok_tail_shape inp fs l hok
  rw [hcb] at hcb2
  injection hcb2 with hce
  subst hce
  obtain ⟨-, -, htr⟩ := run_none_ok_eq inp fs l hok
  have htail : ∃ t2, evtsOf (tailInstrs inp coreReady) =
      Event.sel (pjoin scratchPath (tlName inp.year "us_county"))
        (pjoin (tlGdbPath inp.year) ce.code2) fipsWhere :: t2 := by
    unfold tailInstrs
    rw [hcb]
    simp only
    rw [hrm]
    simp only
    simp only [evtsOf_append, evtsOf_countyInstrs, List.cons_append, List.append_assoc]
    exact ⟨_, rfl⟩
  have huses : ∀ e ∈ evtsOf (tailInstrs inp coreReady),
      usesCountyB (pjoin (tlGdbPath inp.year) ce.code2) e = true := by
    intro e he
    unfold tailInstrs at he
    rw [hcb] at he
    simp only at he
    rw [hrm] at he
    simp only [evtsOf_append, List.mem_append] at he
    rcases he with ((((h | h) | h) | h) | h) | h
    · exact county_evts_uses inp ce _ e h
    · simp [evtsOf] at h
    · rw [flatten_map_eq_flatMap, evtsOf_flatMap] at h
      obtain ⟨f, hf, hef⟩ := List.mem_flatMap.1 h
      exact layer_evts_uses inp _ f e hef
    · rw [evtsOf_flatMap] at h
      obtain ⟨fc, hfc, hef⟩ := List.mem_flatMap.1 h
      exact md_evts_uses inp _ fc _ e hef
    · split at h
      · simp [evtsOf] at h
        subst h; rfl
      · simp [evtsOf] at h
    · simp [evtsOf] at h
      subst h; rfl
  obtain ⟨t2, ht2⟩ := htail
  refine ⟨fcl, t2, hrm, removeFirst_not_mem _ _ _ hnd hrm, ?_, ?_, ?_⟩
  · rw [htr, ht2]
  · intro e he
    exact ⟨setup_evts_setup inp fs e he,
      isSetupEvt_not_dispatch e (setup_evts_setup inp fs e he)⟩
  · intro e he
    rw [htr] at he
    rcases List.mem_append.1 he with h | h
    · exact isSetupEvt_uses _ e (setup_evts_setup inp fs e h)
    · exact huses e h

/-- Concrete inputs for the C6 witness: county plus one `copy` layer. -/
def c6wInputs : Inputs where
  year := 2020
  cb := [("us_county", ⟨"CO", "query", "County"⟩), ("06059_roads", ⟨"RD", "copy", "Roads"⟩)]
  scratchFcs := ["tl_2020_us_county", "tl_2020_06059_roads"]
  content := fun _ => [⟨"06", "059", "06", "059"⟩]
  clipRes := fun _ => []
  near := fun _ => false
  mdDict := [("us_county", ⟨"t", "g", "s", "d", "c", "a", "u"⟩),
    ("06059_roads", ⟨"t", "g", "s", "d", "c", "a", "u"⟩)]
  mdReadOnly := false
  shpCount := 2
  tblCount := 0

/-- Witness for C6 on `c6wInputs`. -/
theorem claim_C6_witness :
    ∃ fcl t2,
      removeFirst (c6wInputs.scratchFcs.map (stripTl c6wInputs.year)) "us_county" = some fcl ∧
      "us_county" ∉ fcl ∧
      (process_shapefiles c6wInputs ⟨false, false⟩ none).trace =
        evtsOf (setupInstrs c6wInputs ⟨false, false⟩) ++
          Event.sel (pjoin scratchPath (tlName c6wInputs.year "us_county"))
            (pjoin (tlGdbPath c6wInputs.year) "CO") fipsWhere :: t2 ∧
      (∀ e ∈ evtsOf (setupInstrs c6wInputs ⟨false, false⟩),
        isSetupEvt e = true ∧ isDispatchEvt e = false) ∧
      (∀ e ∈ (process_shapefiles c6wInputs ⟨false, false⟩ none).trace,
        usesCountyB (pjoin (tlGdbPath c6wInputs.year) "CO") e = true) :=
  claim_C6 c6wInputs ⟨false, false⟩ ⟨"CO", "query", "County"⟩
    [("CO", "us_county"), ("RD", "06059_roads")] (by decide) (by decide) (by rfl)

/-! Claim C4. -/

/-- The run leaves the scratch geodatabase in place whenever it ends with an
injected geoprocessing failure. -/
def ScratchSafe (r : ExecRes) : Prop :=
  r.res = .error (.arcpyFail .geoproc) → r.core.scratchExists = true

theorem ncalls_scratchCreate (b : Bool) : ncalls (scratchCreateInstrs b) ≤ 2 := by
  cases b <;> simp [scratchCreateInstrs, ncalls, List.filter]

theorem scratchCreate_notRaise (b : Bool) : ∀ i ∈ scratchCreateInstrs b, notRaise i := by
  cases b <;> intro i hi <;> simp [scratchCreateInstrs] at hi
  · subst hi; trivial
  · rcases hi with hi | hi <;> (subst hi; trivial)

theorem applyAll_scratchCreate_scratch (b : Bool) (c : Core) :
    (applyAll (scratchCreateInstrs b) c).scratchExists = true := by
  cases b <;> rfl

theorem tameL_importInstrs (inp : Inputs) : TameL (importInstrs inp) := by
  unfold importInstrs
  exact tameL_append (tameL_ite (tameL_single (tame_call_id _ _)) tameL_nil)
    (tameL_ite (tameL_single (tame_call_id _ _)) tameL_nil)

theorem tame_call_tlgdb (t : Tag) (e : Event) (b2 : Bool)
    (g : Core → List (String × List Row)) :
    Tame (Instr.call ⟨t, e, fun c => { c with tlExists := b2, gdb := g c }⟩) :=
  fun _ => ⟨rfl, fun _ hk => hk⟩

theorem tameL_createGdbInstrs (b : Bool) (y : Nat) : TameL (createGdbInstrs b y) := by
  unfold createGdbInstrs
  split
  · exact tameL_single (tame_call_tlgdb _ _ _ _)
  · exact tameL_cons (tame_call_tlgdb _ _ _ _) (tameL_single (tame_call_tlgdb _ _ _ _))

theorem tameL_loopFlatten (inp : Inputs) (oc : String) (fcl : List String) :
    TameL ((fcl.map (layerInstrs inp oc)).flatten) := by
  refine tameL_flatten (fun li hli => ?_)
  obtain ⟨g, hg, rfl⟩ := List.mem_map.1 hli
  exact tameL_layerInstrs inp _ g

theorem tameL_mdFlatMap (inp : Inputs) (reg : List (String × String)) (xs : List String) :
    TameL (xs.flatMap (mdFcInstrs inp reg)) :=
  tameL_flatMap (fun x _ => tameL_mdFcInstrs inp _ x)

/-- Sequencing lemma: prefixing a scratch-safety target with a tame segment
preserves it, whether the segment fails or completes. -/
theorem scratchSafe_seg (S R : List Instr) (hS : TameL S) (fa : Option Nat)
    (hR : ∀ n c tr, c.scratchExists = true → ScratchSafe (exec R fa n c tr)) :
    ∀ n c tr, c.scratchExists = true → ScratchSafe (exec (S ++ R) fa n c tr) := by
  intro n c tr hc
  cases hs : (exec S fa n c tr).res with
  | error e =>
    rw [exec_append_error _ _ _ _ _ _ e hs]
    intro _
    rw [exec_tame_scratch S hS fa n c tr]
    exact hc
  | ok x =>
    rw [exec_append_ok _ _ _ _ _ _ x hs]
    refine hR _ _ _ ?_
    rw [exec_tame_scratch S hS fa n c tr]
    exact hc

/-- The closing metadata save alone is scratch-safe: an injected failure
there carries the metadata-API tag, not the geoprocessing tag. -/
theorem scratchSafe_save (y : Nat) (fa : Option Nat) :
    ∀ n c tr, c.scratchExists = true →
      ScratchSafe (exec
        [Instr.call ⟨.metaApi, .saveGdbMeta (tlGdbPath y), fun c => c⟩] fa n c tr) := by
  intro n c tr hc h
  by_cases h1 : fa = some n
  · simp [exec, h1] at h
  · simp [exec, if_neg h1] at h

/-- The closing scratch deletion followed by the metadata save is
scratch-safe: failing at the deletion itself leaves the scratch geodatabase
in place, and the only later call is a metadata-API call. -/
theorem scratchSafe_closing (y : Nat) (fa : Option Nat) :
    ∀ n c tr, c.scratchExists = true →
      ScratchSafe (exec
        [Instr.call ⟨.geoproc, .del scratchPath, fun c => { c with scratchExists := false }⟩,
         Instr.call ⟨.metaApi, .saveGdbMeta (tlGdbPath y), fun c => c⟩] fa n c tr) := by
  intro n c tr hc h
  by_cases h1 : fa = some n
  · simp only [exec, if_pos h1]
    exact hc
  · simp only [exec, if_neg h1] at h ⊢
    by_cases h2 : fa = some (n + 1)
    · simp [exec, h2] at h
    · simp [exec, if_neg h2] at h

/-- The closing conditional deletion plus save is scratch-safe. -/
theorem scratchSafe_ifclose (b : Prop) [Decidable b] (y : Nat) (fa : Option Nat) :
    ∀ n c tr, c.scratchExists = true →
      ScratchSafe (exec
        ((if b then
            [Instr.call ⟨.geoproc, .del scratchPath,
              fun c => { c with scratchExists := false }⟩]
          else []) ++
          [Instr.call ⟨.metaApi, .saveGdbMeta (tlGdbPath y), fun c => c⟩]) fa n c tr) := by
  intro n c tr hc
  split
  · exact scratchSafe_closing y fa n c tr hc
  · exact scratchSafe_save y fa n c tr hc

/-- Every run with an injected failure is scratch-safe, provided the scratch
creation at the start completed (the injected index is at least 2). -/
theorem run_scratchSafe (inp : Inputs) (fs : FS) (k : Nat) (hk : 2 ≤ k) :
    ScratchSafe (process_shapefiles inp fs (some k)) := by
  unfold process_shapefiles
  rw [compileRun_eq]
  unfold setupInstrs
  simp only [List.append_assoc]
  cases hs : (exec (scratchCreateInstrs fs.scratchExists) (some k) 0 (coreInit fs) []).res with
  | error e =>
    rw [exec_append_error _ _ _ _ _ _ e hs]
    intro h2
    exfalso
    rw [hs] at h2
    injection h2 with h3
    subst h3
    obtain ⟨j, hj, hj0, hjlt⟩ :=
      exec_arcpyFail_index _ _ _ _ _ _ (scratchCreate_notRaise _) hs
    injection hj with hj
    have hb := ncalls_scratchCreate fs.scratchExists
    omega
  | ok x =>
    rw [exec_append_ok _ _ _ _ _ _ x hs]
    have hc1 : (exec (scratchCreateInstrs fs.scratchExists) (some k) 0
        (coreInit fs) []).core.scratchExists = true := by
      rw [exec_ok_eq _ _ _ _ _ _ hs]
      exact applyAll_scratchCreate_scratch _ _
    refine scratchSafe_seg _ _ (tameL_importInstrs inp) _ ?_ _ _ _ hc1
    refine scratchSafe_seg _ _ (tameL_createGdbInstrs _ _) _ ?_
    intro n c tr hc
    unfold tailInstrs
    cases hcb : dlookup "us_county" inp.cb with
    | none =>
      intro h2
      rw [exec_tame_scratch _ (tameL_single (tame_raise _)) _ _ _ _]
      exact hc
    | some ce =>
      simp only
      cases hrm : removeFirst (inp.scratchFcs.map (stripTl inp.year)) "us_county" with
      | none =>
        intro h2
        rw [exec_tame_scratch _
          (tameL_append (tameL_countyInstrs inp ce) (tameL_single (tame_raise _))) _ _ _ _]
        exact hc
      | some fcl =>
        simp only [List.append_assoc]
        refine scratchSafe_seg _ _ (tameL_countyInstrs inp ce) _ ?_ _ _ _ hc
        refine scratchSafe_seg _ _ (tameL_single (tame_eff_reg_dinsert _ _)) _ ?_
        refine scratchSafe_seg _ _ (tameL_loopFlatten inp _ fcl) _ ?_
        refine scratchSafe_seg _ _ (tameL_mdFlatMap inp _ _) _ ?_
        exact scratchSafe_ifclose _ inp.year (some k)

/-- A helper for the closing shape of the successful trace. -/
theorem append_close_shape {α : Type} (A B : List α) (d s : α) :
    ∃ t, A ++ ((B ++ [d]) ++ [s]) = t ++ [d, s] :=
  ⟨A ++ B, by simp⟩

theorem evtsOf_single_call (cl : Call) : evtsOf [Instr.call cl] = [cl.evt] := rfl

/-- On the successful path the scratch geodatabase is deleted, and it is
deleted as the second-to-last vendor call, right before the final geodatabase
metadata save — after the whole metadata-application loop. -/
theorem run_none_ok_scratch (inp : Inputs) (fs : FS) (l : List (String × String))
    (h : (process_shapefiles inp fs none).res = .ok l) :
    (process_shapefiles inp fs none).core.scratchExists = false ∧
    ∃ t, (process_shapefiles inp fs none).trace =
      t ++ [Event.del scratchPath, Event.saveGdbMeta (tlGdbPath inp.year)] := by
  obtain ⟨ce, fcl, hcb, hrm⟩ := run_ok_tail_shape inp fs l h
  obtain ⟨-, hcore, htr⟩ := run_none_ok_eq inp fs l h
  constructor
  · rw [hcore]
    unfold tailInstrs
    rw [hcb]
    simp only
    rw [hrm]
    simp only
    rw [applyAll_append, applyAll_append]
    split
    · rfl
    · rename_i hcnd
      exfalso
      apply hcnd
      rw [applyAll_tame_scratch]
      rfl
      exact tameL_append (tameL_append (tameL_append (tameL_countyInstrs inp ce)
        (tameL_single (tame_eff_reg_dinsert _ _))) (tameL_loopFlatten inp _ fcl))
        (tameL_mdFlatMap inp _ _)
  · rw [htr]
    unfold tailInstrs
    rw [hcb]
    simp only
    rw [hrm]
    simp only
    rw [evtsOf_append, evtsOf_append]
    split
    · rw [evtsOf_single_call, evtsOf_single_call]
      exact append_close_shape _ _ _ _
    · rename_i hcnd
      exfalso
      apply hcnd
      rw [applyAll_tame_scratch]
      rfl
      exact tameL_append (tameL_append (tameL_append (tameL_countyInstrs inp ce)
        (tameL_single (tame_eff_reg_dinsert _ _))) (tameL_loopFlatten inp _ fcl))
        (tameL_mdFlatMap inp _ _)

/-- C4: if a vendor geoprocessing call inside `process_shapefiles` raises,
the exception propagates uncaught — the run returns an error and no
final_list — and the scratch geodatabase created at the start of the run is
not deleted; deletion of the scratch container happens only on the normal
exit path, where it is the second-to-last vendor call, after the whole
metadata-application loop and followed only by the final geodatabase
metadata save (a metadata-API call, not a geoprocessing call). -/
theorem claim_C4 (inp : Inputs) (fs : FS) (k : Nat) (hk : 2 ≤ k) :
    ((process_shapefiles inp fs (some k)).res = .error (.arcpyFail .geoproc) →
      (∀ l, (process_shapefiles inp fs (some k)).res ≠ .ok l) ∧
      (process_shapefiles inp fs (some k)).core.scratchExists = true) ∧
    (∀ l, (process_shapefiles inp fs none).res = .ok l →
      (process_shapefiles inp fs none).core.scratchExists = false ∧
      ∃ t, (process_shapefiles inp fs none).trace =
        t ++ [Event.del scratchPath, Event.saveGdbMeta (tlGdbPath inp.year)]) := by
  constructor
  · intro h
    refine ⟨fun l hl => ?_, run_scratchSafe inp fs k hk h⟩
    rw [h] at hl
    exact Except.noConfusion hl
  · exact fun l hl => run_none_ok_scratch inp fs l hl

/-- Concrete inputs for the C4 witness. -/
def c4wInputs : Inputs where
  year := 2020
  cb := [("us_county", ⟨"CO", "query", "County"⟩)]
  scratchFcs := ["tl_2020_us_county"]
  content := fun _ => [⟨"06", "059", "06", "059"⟩]
  clipRes := fun _ => []
  near := fun _ => false
  mdDict := [("us_county", ⟨"t", "g", "s", "d", "c", "a", "u"⟩)]
  mdReadOnly := false
  shpCount := 1
  tblCount := 0

/-- Witness for C4: failing the third vendor call (the year-geodatabase
creation, a geoprocessing call) aborts the run and leaves the scratch
geodatabase in place; the failure-free run deletes it. -/
theorem claim_C4_witness :
    (process_shapefiles c4wInputs ⟨false, false⟩ (some 2)).res =
      .error (.arcpyFail .geoproc) ∧
    (process_shapefiles c4wInputs ⟨false, false⟩ (some 2)).core.scratchExists = true ∧
    (process_shapefiles c4wInputs ⟨false, false⟩ none).core.scratchExists = false := by
  have h := claim_C4 c4wInputs ⟨false, false⟩ 2 (by decide)
  have hr : (process_shapefiles c4wInputs ⟨false, false⟩ (some 2)).res =
      .error (.arcpyFail .geoproc) := by rfl
  refine ⟨hr, (h.1 hr).2, ?_⟩
  exact (h.2 [("CO", "us_county")] (by rfl)).1

end OCTL